import Mathlib

/-!
Verification development for the express-dot-engine template engine
(src/index.js).  The JavaScript source is shallowly embedded: JS values
become the inductive `JVal`, the lodash helpers used by the engine
(`_.merge`, `_.assign`, `_.union`) become Lean functions, the regex-based
template parser (`processTemplateString` and the regexes in `settings`)
becomes a set of character-list scanners, and the `Template` object with
its `render` / `renderAsync` pipelines becomes pure state-passing Lean
functions.  External collaborators (the doT compiler, the filesystem
loader, the YAML front-matter parser) are passed in as function
parameters, exactly at the interface boundary the engine uses them.
-/

deriving instance DecidableEq for Except

/-- Embedding of JavaScript runtime values as used by the engine.
Objects are embedded as cons-chains (`objCons k v rest` is an object
whose first own field is `k`, JS insertion order preserved); functions
and promises are opaque except for the data the engine itself threads
through them: a function value carries an identity tag, a promise
carries its eventual settlement (fulfilled string or rejection message).
JS compares objects by reference, so the terminal `objNil` of every
chain carries a reference tag: each allocation site inside the engine
(`layoutModel`, the `_locals` fallback `{}`, the partial helper's
`_.assign` target, the default config) uses its own tag, which makes
objects created by distinct engine allocations compare unequal exactly
as their JS counterparts do; caller-supplied values use tag 0.  Beyond
that, identity is structural, and concrete inputs in witnesses and
counterexamples are chosen so that structural equality coincides with
JS SameValueZero comparison on them. -/
inductive JVal where
  | null : JVal
  | undefined : JVal
  | bool (b : Bool) : JVal
  | num (n : Int) : JVal
  | str (s : String) : JVal
  | objNil (ref : Nat) : JVal
  | objCons (k : String) (v : JVal) (rest : JVal) : JVal
  | fn (id : Nat) : JVal
  | jsPromiseOk (s : String) : JVal
  | jsPromiseErr (e : String) : JVal
  deriving DecidableEq, Repr

/-- Convenience constructor for (caller-side) object literals. -/
def jobj : List (String × JVal) → JVal
  | [] => .objNil 0
  | (k, v) :: rest => .objCons k v (jobj rest)

/-- Whether a value is an object (the only values lodash `merge` recurses
into among the shapes the engine passes). -/
def isObjLike : JVal → Bool
  | .objNil _ => true
  | .objCons _ _ _ => true
  | _ => false

/-- JS truthiness: `null`, `undefined`, `false`, `0` and the empty string
are falsy, everything else (objects, functions, promises) is truthy. -/
def truthy : JVal → Bool
  | .null => false
  | .undefined => false
  | .bool b => b
  | .num n => n != 0
  | .str s => s ≠ ""
  | _ => true

/-- JS string coercion as performed by `'' + v`. -/
def jsToString : JVal → String
  | .null => "null"
  | .undefined => "undefined"
  | .bool b => if b then "true" else "false"
  | .num n => toString n
  | .str s => s
  | .objNil _ => "[object Object]"
  | .objCons _ _ _ => "[object Object]"
  | .fn _ => "function"
  | .jsPromiseOk _ => "[object Promise]"
  | .jsPromiseErr _ => "[object Promise]"

/-- Lookup of an own field; `none` when the key is absent or the value is
not an object. -/
def getFieldOpt : JVal → String → Option JVal
  | .objCons k v rest, key => if k == key then some v else getFieldOpt rest key
  | _, _ => none

/-- JS member access `v[k]`: a missing field reads as `undefined`. -/
def getField (v : JVal) (key : String) : JVal :=
  (getFieldOpt v key).getD .undefined

/-- JS property assignment `o[k] = v` on an object: replaces the value of
an existing key in place (JS keeps the original insertion position) or
appends a new key.  Assignment on a non-object is a silent no-op, as in
sloppy-mode JS. -/
def setField (v : JVal) (key : String) (w : JVal) : JVal :=
  match v with
  | .objNil r => .objCons key w (.objNil r)
  | .objCons k v0 rest =>
      if k == key then .objCons k w rest else .objCons k v0 (setField rest key w)
  | other => other

/-- lodash `_.union`: concatenates the argument arrays and removes
duplicate values (SameValueZero comparison), keeping the first
occurrence of each value.  The engine calls it on the already
concatenated argument list, so we take a single list. -/
def unionJ (l : List JVal) : List JVal :=
  l.foldl (fun acc v => if v ∈ acc then acc else acc ++ [v]) []

/-- One source step of lodash `_.assign`: shallow-copies the own fields
of `src` onto `acc`, later fields overriding earlier ones.  Non-object
sources contribute nothing (the engine only ever passes objects). -/
def assignOne (acc : JVal) : JVal → JVal
  | .objCons k v rest => assignOne (setField acc k v) rest
  | _ => acc

/-- lodash `_.assign(target, src₁, src₂, …)`: shallow merge of the
sources into the target object, later sources winning on key conflicts;
returns the target. -/
def assignJ (sources : List JVal) : JVal :=
  match sources with
  | [] => .objNil 0
  | target :: rest => rest.foldl assignOne target

/-- lodash `_.merge(dst, src)` restricted to the value shapes the engine
passes: when both sides are objects their fields are merged recursively
(destination key order kept, new keys appended), an `undefined` source
leaves the destination in place, and any other source value overwrites.
Structural recursion on the source value. -/
def mergeVal : JVal → JVal → JVal
  | d, .objCons k sv rest =>
      let base := if isObjLike d then d else .objNil 0
      let updated :=
        match getFieldOpt base k with
        | some dv =>
            if isObjLike dv && isObjLike sv then setField base k (mergeVal dv sv)
            else
              match sv with
              | .undefined => base
              | _ => setField base k sv
        | none =>
            match sv with
            | .undefined => base
            | _ => setField base k sv
      mergeVal updated rest
  | d, .objNil r => if isObjLike d then d else .objNil r
  | d, .undefined => d
  | _, s => s

/-- The seeding step shared by `Template.prototype.render` and
`Template.prototype.renderAsync` (src/index.js lines 261 and 340):
`layoutModel = _.merge({}, options.layout, this.options.config)`.
The fresh `{}` carries reference tag 1. -/
def seedLayoutModel (layout : JVal) (config : JVal) : JVal :=
  mergeVal (mergeVal (.objNil 1) layout) config

/-! ## Regex scanners

The parser in src/index.js works by running four regexes over the raw
template text: `settings.config` (`^---([\s\S]+?)---`), `settings.comment`
(`<!--([\s\S]+?)-->`), `settings.dot.define`
(`\[\[##\s*([\w\.$]+)\s*(:|=)([\s\S]+?)#]]`) and `settings.partialAsync`
(`(?<!await\s+)\bpartial\s*\([^)]*\)`, replaced by `'await $&'`).  Each is
embedded as a deterministic scanner over `List Char`, mirroring the JS
global-regex semantics: attempt a match at each position left to right,
and on success continue scanning after the matched region.  All the
quantifiers involved are either lazy up to a literal closing token or
greedy over a character class followed by a literal, so matching is
backtracking-free and the scanners are exact.  The scanners carry a
`skip` counter instead of jumping, so recursion stays structural; `\s`
is modelled by the ASCII whitespace characters (the engine's templates
and the claims involve no exotic Unicode whitespace). -/

/-- JS `\w` (ASCII word character). -/
def isWordChar (c : Char) : Bool :=
  c.isAlphanum || c == '_'

/-- JS `\s`, restricted to ASCII whitespace. -/
def isWsChar (c : Char) : Bool :=
  c == ' ' || c == '\t' || c == '\n' || c == '\r' || c == '\x0b' || c == '\x0c'

/-- Section-name character class `[\w\.$]` of `settings.dot.define`. -/
def isNameChar (c : Char) : Bool :=
  isWordChar c || c == '.' || c == '$'

/-- Lazy search for a closing literal: finds the earliest occurrence of
`close` preceded by at least `minLen` content characters, returning the
content.  This is `([\s\S]+?)close` with `minLen = 1`. -/
def findLazyGo (close : List Char) (minLen : Nat) (acc : List Char) :
    List Char → Option (List Char)
  | [] => none
  | c :: t =>
      if minLen ≤ acc.length && close.isPrefixOf (c :: t) then some acc.reverse
      else findLazyGo close minLen ((c :: acc)) t

/-- The `settings.config` regex `^---([\s\S]+?)---` applied via `str.replace`
with a callback that only captures the front-matter content: the match
must start at position 0, so at most one match fires.  Faithfully to the
source, the matched region is NOT removed from the string (the `replace`
result is discarded at src/index.js line 534). -/
def extractConfig (cs : List Char) : Option (List Char) :=
  if ("---".data).isPrefixOf cs then findLazyGo "---".data 1 [] (cs.drop 3)
  else none

/-- Attempt to match `<!--([\s\S]+?)-->` at the current position,
returning the total match length. -/
def matchComment (cs : List Char) : Option Nat :=
  if ("<!--".data).isPrefixOf cs then
    match findLazyGo "-->".data 1 [] (cs.drop 4) with
    | some content => some (4 + content.length + 3)
    | none => none
  else none

/-- Global replacement of comment regions with the empty string
(`str.replace(settings.comment, …)`), used when `settings.stripComment`
is enabled. -/
def stripCommentsGo : Nat → List Char → List Char
  | _ + 1, [] => []
  | skip + 1, _ :: t => stripCommentsGo skip t
  | 0, [] => []
  | 0, c :: t =>
      match matchComment (c :: t) with
      | some n => stripCommentsGo (n - 1) t
      | none => c :: stripCommentsGo 0 t

/-- Attempt to match the section-definition regex
`\[\[##\s*([\w\.$]+)\s*(:|=)([\s\S]+?)#]]` at the current position.
Returns the total match length, the captured name and the captured
value.  Greedy `\s*` and `[\w\.$]+` followed by the required `:`/`=`
admit no successful backtracking, so maximal munch is exact. -/
def matchDefine (cs : List Char) : Option (Nat × String × String) :=
  if ("[[##".data).isPrefixOf cs then
    let r1 := cs.drop 4
    let ws1 := (r1.takeWhile isWsChar).length
    let r2 := r1.drop ws1
    let name := r2.takeWhile isNameChar
    if name.isEmpty then none
    else
      let r3 := r2.drop name.length
      let ws2 := (r3.takeWhile isWsChar).length
      match r3.drop ws2 with
      | c :: r5 =>
          if c == ':' || c == '=' then
            match findLazyGo "#]]".data 1 [] r5 with
            | some value =>
                some (4 + ws1 + name.length + ws2 + 1 + value.length + 3,
                  String.mk name, String.mk value)
            | none => none
          else none
      | [] => none
  else none

/-- The section-collection loop `str.replace(settings.dot.define, …)`:
every match contributes one `(name, value)` pair, in match order. -/
def defineScanGo : Nat → List Char → List (String × String)
  | _ + 1, [] => []
  | skip + 1, _ :: t => defineScanGo skip t
  | 0, [] => []
  | 0, c :: t =>
      match matchDefine (c :: t) with
      | some (n, name, value) => (name, value) :: defineScanGo (n - 1) t
      | none => defineScanGo 0 t

/-- JS object assignment `sections[code] = value`: an existing key keeps
its original position but takes the new value. -/
def sectUpsert (secs : List (String × String)) (key value : String) :
    List (String × String) :=
  if secs.any (fun p => p.1 == key) then
    secs.map (fun p => if p.1 == key then (p.1, value) else p)
  else secs ++ [(key, value)]

/-- The `sections` object produced by the define-scan loop. -/
def defineScan (cs : List Char) : List (String × String) :=
  (defineScanGo 0 cs).foldl (fun acc p => sectUpsert acc p.1 p.2) []

/-- Attempt to match `partial\s*\([^)]*\)` (the part of
`settings.partialAsync` after the zero-width assertions) at the current
position, returning the match length. -/
def matchCall (cs : List Char) : Option Nat :=
  if ("partial".data).isPrefixOf cs then
    let r1 := cs.drop 7
    let ws := (r1.takeWhile isWsChar).length
    match r1.drop ws with
    | '(' :: r2 =>
        let body := (r2.takeWhile (fun c => c ≠ ')')).length
        match r2.drop body with
        | ')' :: _ => some (7 + ws + 1 + body + 1)
        | _ => none
    | _ => none
  else none

/-- The word-boundary `\b` before the literal `partial`, evaluated
against the reversed prefix of already-scanned characters: a boundary
holds at the string start or after a non-word character. -/
def boundaryB (done : List Char) : Bool :=
  match done with
  | [] => true
  | d :: _ => !isWordChar d

/-- The negative lookbehind `(?<!await\s+)`, evaluated against the
reversed prefix: true iff some non-empty run of whitespace immediately
precedes the position and the five characters before that run spell
`await`.  (`"tiawa"` is `await` reversed.) -/
def awaitPreceded (done : List Char) : Bool :=
  (List.range done.length).any fun j =>
    (done.take (j + 1)).all isWsChar && ("tiawa".data).isPrefixOf (done.drop (j + 1))

/-- `str.replace(settings.partialAsync, 'await $&')`: prepend `await `
to every `partial(...)` call at a word boundary that is not already
preceded by `await` plus whitespace.  On a failed zero-width assertion
the JS engine retries at the next position, so an already-`await`ed
call is copied verbatim (and positions inside it are still probed, as
in JS).  `done` is the reversed original prefix, `skip` the number of
characters of an emitted match still to consume. -/
def awaitGo : Nat → List Char → List Char → List Char
  | _ + 1, _, [] => []
  | skip + 1, done, c :: t => awaitGo skip ((c :: done)) t
  | 0, _, [] => []
  | 0, done, c :: t =>
      if boundaryB done && !awaitPreceded done then
        match matchCall (c :: t) with
        | some n => "await ".data ++ (c :: t).take n ++ awaitGo (n - 1) ((c :: done)) t
        | none => c :: awaitGo 0 ((c :: done)) t
      else c :: awaitGo 0 ((c :: done)) t

/-- The async section-body rewrite applied by `processTemplateString`
when compiling in asynchronous mode. -/
def awaitRewrite (s : String) : String :=
  String.mk (awaitGo 0 [] s.data)

/-- Decomposition of a string under the `partialAsync` scan: literal
characters plus the matched (to-be-rewritten) call regions. -/
inductive Tok where
  | lit (c : Char) : Tok
  | call (m : String) : Tok
  deriving DecidableEq, Repr

/-- Tokenizing companion of `awaitGo`: same scan, but it records the
matched regions instead of rewriting them. -/
def scanToksGo : Nat → List Char → List Char → List Tok
  | _ + 1, _, [] => []
  | skip + 1, done, c :: t => scanToksGo skip ((c :: done)) t
  | 0, _, [] => []
  | 0, done, c :: t =>
      if boundaryB done && !awaitPreceded done then
        match matchCall (c :: t) with
        | some n => .call (String.mk ((c :: t).take n)) :: scanToksGo (n - 1) ((c :: done)) t
        | none => .lit c :: scanToksGo 0 ((c :: done)) t
      else .lit c :: scanToksGo 0 ((c :: done)) t

/-- Tokenization of a whole string under the `partialAsync` scan. -/
def scanToks (s : String) : List Tok :=
  scanToksGo 0 [] s.data

/-- Original text of a token list. -/
def flattenToks : List Tok → List Char
  | [] => []
  | .lit c :: rest => c :: flattenToks rest
  | .call m :: rest => m.data ++ flattenToks rest

/-- Rewritten text of a token list: every matched call region gets the
suspension keyword (plus a space) prepended, everything else is kept
verbatim. -/
def flattenAwaited : List Tok → List Char
  | [] => []
  | .lit c :: rest => c :: flattenAwaited rest
  | .call m :: rest => "await ".data ++ m.data ++ flattenAwaited rest

/-! ## Engine settings, express options and the parser -/

/-- The process-wide mutable `settings` object, reduced to the fields
with value-level effect on the modelled pipeline (the `dot` delimiter
patterns live inside the external compiler; `stripWhitespace` only
toggles the compiler's `strip` flag). -/
structure EngineSettings where
  header : String := ""
  stripComment : Bool := false
  stripWhitespace : Bool := false

/-- Default engine settings (src/index.js lines 18-40). -/
def settings : EngineSettings := {}

/-- The `settings` sub-object express passes in render options:
`'view data'` (ordered key-to-value registrations), `'view shortcut'`
(name-to-locals-path registrations) and the views root. -/
structure ViewSettings where
  viewData : Option (List (String × JVal)) := none
  viewShortcut : Option (List (String × String)) := none
  views : String := ""

/-- The express-supplied options relevant to template construction and
caching (`_.pick(options, ['settings'])` plus the `cache` flag; a
custom `getTemplate` loader override is modelled as the loader function
parameter of the build functions). -/
structure ExpressOpts where
  settings : Option ViewSettings := none
  cache : Bool := false

/-- Result of `processTemplateString`. -/
structure ProcessedTemplate where
  config : JVal
  sections : List (String × String)
  templateSettings : ExpressOpts

/-- `processTemplateString(str, options, isAsync)` (src/index.js lines
530-567).  `yamlLoad` is the external `js-yaml` front-matter parser
(excluded collaborator), assumed to return an object value.  Faithful
points: the front-matter region is only read, never removed (the
`replace` result at line 534 is discarded); the truthiness test
`!config.layout` selects the body branch; in async mode every section
body is rewritten by the `partialAsync` replacement. -/
def processTemplateString (yamlLoad : String → JVal) (stg : EngineSettings)
    (options : ExpressOpts) (str : String) (isAsync : Bool) : ProcessedTemplate :=
  let config : JVal :=
    match extractConfig str.data with
    | some conf => yamlLoad (String.mk conf)
    | none => .objNil 4
  let str1 := if stg.stripComment then String.mk (stripCommentsGo 0 str.data) else str
  let rewriteF : String → String := if isAsync then awaitRewrite else id
  let sections :=
    if !truthy (getField config "layout") then [("body", rewriteF str1)]
    else (defineScan str1.data).map (fun p => (p.1, rewriteF p.2))
  { config := config
    sections := sections
    templateSettings := { settings := options.settings, cache := options.cache } }

/-! ## Template objects

A compiled section (the result of the external `dot.template` /
`dot.templateAsync` compiler) is a function from the positional argument
list to a result: invoking it may throw (`Except.error`) or return a
value — a string for sync-compiled sections, a promise
(`jsPromiseOk` / `jsPromiseErr`, carrying the eventual settlement) for
async-compiled ones.  The compiler itself is an excluded collaborator
and is passed in as a parameter wherever the source calls it. -/

/-- A compiled section function. -/
abbrev SectFn : Type := List JVal → Except String JVal

/-- The options object handed to the `Template` constructor by
`builtTemplateFromString` (src/index.js lines 580-586). -/
structure TemplateOptions where
  express : ExpressOpts
  config : JVal
  sections : List (String × String)
  dirname : String
  filename : String

/-- The `Template` object (src/index.js lines 140-183): construction
flags, the resolved master path, the compiled section functions and the
engine-wide view data / shortcut registrations captured at
construction. -/
structure Template where
  isAsync : Bool
  isLayout : Bool
  master : Option String
  config : JVal
  templates : List (String × SectFn)
  viewData : List JVal
  shortcuts : List (String × String)
  express : ExpressOpts
  dirname : String
  filename : String

/-- `path.join(dir, rel)`, simplified to plain concatenation with a
separator (the engine only joins a directory with a relative file name
in the modelled scenarios; Node's `..` normalization is not exercised). -/
def joinPath (dir rel : String) : String :=
  if dir = "" then rel else dir ++ "/" ++ rel

/-- `path.dirname`. -/
def dirnameOf (s : String) : String :=
  let parts := s.splitOn "/"
  if parts.length ≤ 1 then "." else String.intercalate "/" parts.dropLast

/-- The views root `options.express.settings.views`. -/
def viewsOf (e : ExpressOpts) : String :=
  match e.settings with
  | some vs => vs.views
  | none => ""

/-- The `Template` constructor (`new Template(options, isAsync)`)
together with `init` / `initAsync`: `isLayout` is the truthiness of
`options.config.layout`, `master` is `path.join(dirname, layout)`,
`viewData` collects the values of the express `view data` registrations
in order, `shortcuts` the `view shortcut` registrations, and every
section text is compiled by the (externally supplied) compiler.  The
async path compiles all sections concurrently and awaits them before
the Template is usable; value-wise this is the same mapping. -/
def mkTemplate (options : TemplateOptions) (isAsync : Bool)
    (compile : String → SectFn) : Template :=
  let isLayout := truthy (getField options.config "layout")
  { isAsync := isAsync
    isLayout := isLayout
    master :=
      if isLayout then
        some (joinPath options.dirname (jsToString (getField options.config "layout")))
      else none
    config := options.config
    templates := options.sections.map (fun p => (p.1, compile p.2))
    viewData :=
      match options.express.settings with
      | some vs => ((vs.viewData).getD []).map (fun p => p.2)
      | none => []
    shortcuts :=
      match options.express.settings with
      | some vs => (vs.viewShortcut).getD []
      | none => []
    express := options.express
    dirname := options.dirname
    filename := options.filename }

/-! ## Rendering -/

/-- Options passed to `Template.prototype.render` / `renderAsync`:
`layout` (absent at the top level, hence `undefined`), the model, and
the partial flag. -/
structure RenderOpts where
  layout : JVal := .undefined
  model : JVal := .objNil 0
  isPartial : Bool := false

/-- The error wrapper applied around a failed section invocation
(src/index.js lines 290 and 369). -/
def renderWrap (filename msg : String) : String :=
  "Failed to render with doT (" ++ filename ++ ") - " ++ msg

/-- The third positional argument, `options.model._locals || {}`; the
fallback `{}` carries reference tag 2. -/
def localsArg (model : JVal) : JVal :=
  let lv := getField model "_locals"
  if truthy lv then lv else .objNil 2

/-- The shortcut-bound values:
`options.model._locals[shortcuts[shortcut]] || null` for every shortcut
key in order.  When `_locals` is `undefined` or `null` the member access
itself throws a `TypeError` (caught by the surrounding try of the render
loop); a falsy entry — absent included — yields `null`. -/
def shortcutVals (shortcuts : List (String × String)) (model : JVal) :
    Except String (List JVal) :=
  let locals := getField model "_locals"
  match locals with
  | .undefined => if shortcuts.isEmpty then .ok [] else .error "TypeError: cannot read properties of undefined"
  | .null => if shortcuts.isEmpty then .ok [] else .error "TypeError: cannot read properties of null"
  | lv =>
      .ok (shortcuts.map (fun p =>
        let v := getField lv p.2
        if truthy v then v else .null))

/-- The `viewModel` argument list built for every section invocation
(src/index.js lines 268-282 and 348-362):
`_.union([layoutModel, partialHelper, locals, model], viewData,
shortcutValues)` — note that `_.union` deduplicates.  The partial helper
closure is an opaque function value. -/
def buildViewModel (L helper model : JVal) (viewData : List JVal)
    (shortcuts : List (String × String)) : Except String (List JVal) :=
  match shortcutVals shortcuts model with
  | .error e => .error e
  | .ok svals => .ok (unionJ ([L, helper, localsArg model, model] ++ viewData ++ svals))

/-- The synchronous section loop of `Template.prototype.render`
(src/index.js lines 264-299): sections run in order, each invoked with
the current `layoutModel` (running its own earlier-stored outputs) and
its result stored into `layoutModel` under the section name; the first
failure aborts the loop with the wrapped error. -/
def renderSectionsSync (t : Template) (model : JVal) :
    JVal → List (String × SectFn) → Except String JVal
  | L, [] => .ok L
  | L, (key, f) :: rest =>
      match buildViewModel L (.fn 0) model t.viewData t.shortcuts with
      | .error e => .error (renderWrap t.filename e)
      | .ok args =>
          match f args with
          | .error e => .error (renderWrap t.filename e)
          | .ok v => renderSectionsSync t model (setField L key v) rest

/-- `Template.prototype.render` (src/index.js lines 256-328).  `getT`
stands for the master resolution performed through
`getTemplate(this.master, this.options.express)` — the Loader→Parser→
build composite, whose cache behavior is modelled separately below —
and `fuel` bounds the layout-chain depth (the recursion on the master
template).  The callback flavor delivers exactly the same value or
error through the callback, so a single `Except` result covers both. -/
def Template.render (stg : EngineSettings) (getT : String → Option Template) :
    Nat → Template → RenderOpts → Except String String
  | 0, _, _ => .error "layout chain too deep"
  | fuel + 1, t, o =>
      match renderSectionsSync t o.model (seedLayoutModel o.layout t.config) t.templates with
      | .error e => .error e
      | .ok L =>
          if !t.isLayout then
            .ok ((if !o.isPartial then stg.header else "") ++ jsToString (getField L "body"))
          else
            match t.master with
            | none => .error "isLayout without master"
            | some mp =>
                match getT mp with
                | none => .error ("Failed to open view file (" ++ mp ++ ")")
                | some mt => Template.render stg getT fuel mt ⟨L, o.model, false⟩

/-- The fan-out phase of `Template.prototype.renderAsync` (src/index.js
lines 343-372): every section is invoked (each against the seed
`layoutModel`, since all invocations happen before any settlement) and
yields the promise of its output.  A synchronous throw during an
invocation — including a `TypeError` when the compiled function does
not return a promise — is caught by the per-section try and re-thrown
wrapped, aborting the whole map.  A rejected promise is NOT wrapped
here; it is collected for `Promise.all`. -/
def collectAsyncSections (t : Template) (model : JVal) (L0 : JVal) :
    List (String × SectFn) → Except String (List (String × Except String String))
  | [] => .ok []
  | (key, f) :: rest =>
      match buildViewModel L0 (.fn 0) model t.viewData t.shortcuts with
      | .error e => .error (renderWrap t.filename e)
      | .ok args =>
          match f args with
          | .error e => .error (renderWrap t.filename e)
          | .ok (.jsPromiseOk s) =>
              match collectAsyncSections t model L0 rest with
              | .error e => .error e
              | .ok tail => .ok ((key, .ok s) :: tail)
          | .ok (.jsPromiseErr e) =>
              match collectAsyncSections t model L0 rest with
              | .error e2 => .error e2
              | .ok tail => .ok ((key, .error e) :: tail)
          | .ok _ => .error (renderWrap t.filename "TypeError: then is not a function")

/-- `Promise.all` settlement over the collected sections: the first
rejection (in section order, the deterministic fragment of JS's
first-to-reject timing) fails the batch with the ORIGINAL error. -/
def firstRejection (lst : List (String × Except String String)) : Option String :=
  lst.findSome? (fun p => match p.2 with | .error e => some e | .ok _ => none)

/-- Storing the fulfilled section outputs
(`.then((m) => layoutModel[key] = m)`). -/
def storeSettled (L : JVal) (lst : List (String × Except String String)) : JVal :=
  lst.foldl (fun acc p => match p.2 with | .ok s => setField acc p.1 (.str s) | .error _ => acc) L

/-- `Template.prototype.renderAsync` (src/index.js lines 336-385):
seed the layout model, fan out all section invocations, await the
combined settlement (`Promise.all`), then either emit
`header + layoutModel.body` or resolve and render the master through
the async pipeline. -/
def Template.renderAsync (stg : EngineSettings) (getT : String → Option Template) :
    Nat → Template → RenderOpts → Except String String
  | 0, _, _ => .error "layout chain too deep"
  | fuel + 1, t, o =>
      let L0 := seedLayoutModel o.layout t.config
      match collectAsyncSections t o.model L0 t.templates with
      | .error e => .error e
      | .ok settled =>
          match firstRejection settled with
          | some e => .error e
          | none =>
              let L := storeSettled L0 settled
              if !t.isLayout then
                .ok ((if !o.isPartial then stg.header else "") ++ jsToString (getField L "body"))
              else
                match t.master with
                | none => .error "isLayout without master"
                | some mp =>
                    match getT mp with
                    | none => .error ("Failed to open view file (" ++ mp ++ ")")
                    | some mt => Template.renderAsync stg getT fuel mt ⟨L, o.model, false⟩

/-! ## The partial helper -/

/-- The closure state of the helper returned by
`Template.prototype.createPartialHelper` (src/index.js lines 220-246):
the captured `model` variable.  The source REASSIGNS this closure
variable when extra data arguments are passed
(`model = _.assign.apply(_, [{}, model].concat(args))`), so the state
persists across invocations of the same helper instance. -/
structure PHState where
  model : JVal

/-- Helper construction: the closure captures the caller's current
model. -/
def createPartialHelper (model : JVal) : PHState := ⟨model⟩

/-- One invocation of the partial helper: resolves the path against the
template's directory (or the views root when the directory is falsy),
merges any extra data objects onto a fresh clone of the CURRENT closure
model — updating the closure state — and renders the target template
with `{layout, model, isPartial: true}` through the mode-appropriate
pipeline.  Returns the render result together with the new closure
state. -/
def invokePartialHelper (stg : EngineSettings) (getT : String → Option Template)
    (fuel : Nat) (t : Template) (layout : JVal) (st : PHState)
    (pPath : String) (args : List JVal) : Except String String × PHState :=
  let m := if args.isEmpty then st.model else assignJ ([JVal.objNil 3, st.model] ++ args)
  let tp := joinPath (if t.dirname ≠ "" then t.dirname else viewsOf t.express) pPath
  let ro : RenderOpts := ⟨layout, m, true⟩
  let res :=
    match getT tp with
    | none => .error ("Failed to open view file (" ++ tp ++ ")")
    | some pt =>
        if t.isAsync then Template.renderAsync stg getT fuel pt ro
        else Template.render stg getT fuel pt ro
  (res, ⟨m⟩)

/-! ## Building templates and the two caches -/

/-- `builtTemplateFromString` (src/index.js lines 576-594), sync
pipeline: parse, then construct a sync-mode Template. -/
def builtTemplateFromString (yamlLoad : String → JVal) (stg : EngineSettings)
    (compile : String → SectFn) (str filename : String) (options : ExpressOpts) :
    Template :=
  let p := processTemplateString yamlLoad stg options str false
  mkTemplate ⟨p.templateSettings, p.config, p.sections, dirnameOf filename, filename⟩
    false compile

/-- `builtTemplateFromStringAsync` (src/index.js lines 603-619): parse
in async mode, construct an async-mode Template and await its
concurrent section compilation. -/
def builtTemplateFromStringAsync (yamlLoad : String → JVal) (stg : EngineSettings)
    (compileA : String → SectFn) (str filename : String) (options : ExpressOpts) :
    Template :=
  let p := processTemplateString yamlLoad stg options str true
  mkTemplate ⟨p.templateSettings, p.config, p.sections, dirnameOf filename, filename⟩
    true compileA

/-- `buildTemplate` (src/index.js lines 465-484): load the content
(via the custom `options.getTemplate` override or the filesystem —
both modelled by the `load` parameter) and build.  A failed load
surfaces as an error naming the path. -/
def buildTemplate (yamlLoad : String → JVal) (stg : EngineSettings)
    (compile : String → SectFn) (load : String → Option String)
    (filename : String) (options : ExpressOpts) : Except String Template :=
  match load filename with
  | none => .error ("Failed to open view file (" ++ filename ++ ")")
  | some str => .ok (builtTemplateFromString yamlLoad stg compile str filename options)

/-- `buildTemplateAsync` (src/index.js lines 486-492). -/
def buildTemplateAsync (yamlLoad : String → JVal) (stg : EngineSettings)
    (compileA : String → SectFn) (load : String → Option String)
    (filename : String) (options : ExpressOpts) : Except String Template :=
  match load filename with
  | none => .error ("Failed to open view file (" ++ filename ++ ")")
  | some str => .ok (builtTemplateFromStringAsync yamlLoad stg compileA str filename options)

/-- One memoization store (the module-level `cache` and `asyncCache`
objects, src/index.js lines 45-74). -/
abbrev CacheStore : Type := List (String × Template)

/-- `cache.get(key)`. -/
def cacheGet (c : CacheStore) (key : String) : Option Template :=
  (c.find? (fun p => p.1 == key)).map (fun p => p.2)

/-- `cache.set(key, value)`. -/
def cacheSet (c : CacheStore) (key : String) (t : Template) : CacheStore :=
  if c.any (fun p => p.1 == key) then
    c.map (fun p => if p.1 == key then (p.1, t) else p)
  else c ++ [(key, t)]

/-- The pair of process-wide stores, threaded explicitly. -/
structure Stores where
  cache : CacheStore
  asyncCache : CacheStore

/-- `getTemplate(filename, options)` (src/index.js lines 395-435): read
the SYNC store when (and only when) `options.cache` is truthy, build on
a miss, and populate the SYNC store with the freshly built template.
The callback flavor delivers the same template/error, so one function
covers both. -/
def getTemplate (yamlLoad : String → JVal) (stg : EngineSettings)
    (compile : String → SectFn) (load : String → Option String)
    (st : Stores) (filename : String) (options : ExpressOpts) :
    Except String Template × Stores :=
  if options.cache then
    match cacheGet st.cache filename with
    | some t => (.ok t, st)
    | none =>
        match buildTemplate yamlLoad stg compile load filename options with
        | .ok t => (.ok t, ⟨cacheSet st.cache filename t, st.asyncCache⟩)
        | .error e => (.error e, st)
  else (buildTemplate yamlLoad stg compile load filename options, st)

/-- `getTemplateAsync(filename, options)` (src/index.js lines 437-456):
identical shape against the ASYNC store and the async build pipeline. -/
def getTemplateAsync (yamlLoad : String → JVal) (stg : EngineSettings)
    (compileA : String → SectFn) (load : String → Option String)
    (st : Stores) (filename : String) (options : ExpressOpts) :
    Except String Template × Stores :=
  if options.cache then
    match cacheGet st.asyncCache filename with
    | some t => (.ok t, st)
    | none =>
        match buildTemplateAsync yamlLoad stg compileA load filename options with
        | .ok t => (.ok t, ⟨st.cache, cacheSet st.asyncCache filename t⟩)
        | .error e => (.error e, st)
  else (buildTemplateAsync yamlLoad stg compileA load filename options, st)

/-! ## Auxiliary notions used by the theorems -/

/-- A well-formed object chain: every tail is again an object (JS object
values are always of this shape; malformed chains are representable but
never produced by the engine). -/
def isWfObj : JVal → Bool
  | .objNil _ => true
  | .objCons _ _ rest => isWfObj rest
  | _ => false

/-- The own-key list of an object chain. -/
def objKeys : JVal → List String
  | .objCons k _ rest => k :: objKeys rest
  | _ => []

/-- The update of the destination performed by one source field during
`mergeVal` (a transcription of the inner computation of `mergeVal`,
split out so the recursion can be reasoned about step by step). -/
def mergeUpdated (dst : JVal) (k0 : String) (sv : JVal) : JVal :=
  let base := if isObjLike dst then dst else .objNil 0
  match getFieldOpt base k0 with
  | some dv =>
      if isObjLike dv && isObjLike sv then setField base k0 (mergeVal dv sv)
      else
        match sv with
        | .undefined => base
        | _ => setField base k0 sv
  | none =>
      match sv with
      | .undefined => base
      | _ => setField base k0 sv

/-- The merge the specification describes for seeding the layout model:
a SHALLOW merge of the caller layout and the config — for every
top-level key the config value wins outright when the key occurs in the
config, with no recursive merging of nested objects.  Stated from the
spec's words, to be compared against the source's `seedLayoutModel`. -/
def shallowMergeSpec (layout config : JVal) : JVal :=
  assignJ [.objNil 1, layout, config]

/-- The store discipline of the two caches: every template in the sync
store was built in sync mode, every template in the async store in
async mode. -/
def storesWellTyped (st : Stores) : Prop :=
  (∀ p t, (p, t) ∈ st.cache → t.isAsync = false) ∧
  (∀ p t, (p, t) ∈ st.asyncCache → t.isAsync = true)

/-! ## Concrete fixtures used by counterexamples and witnesses -/

/-- A sync-mode caller template rooted at directory `d`, used to
exercise the partial helper. -/
def tC3 : Template :=
  { isAsync := false, isLayout := false, master := none, config := .objNil 0
    templates := [], viewData := [], shortcuts := [], express := {}
    dirname := "d", filename := "d/c.dot" }

/-- A partial target whose body section echoes `model.b`. -/
def ptC3 : Template :=
  { isAsync := false, isLayout := false, master := none, config := .objNil 0
    templates := [("body", fun args =>
      .ok (.str (jsToString (getField (args.getD 3 .undefined) "b"))))]
    viewData := [], shortcuts := [], express := {}
    dirname := "d", filename := "d/p.dot" }

/-- Loader environment resolving the partial target of `ptC3`. -/
def envC3 : String → Option Template :=
  fun p => if p = "d/p.dot" then some ptC3 else none

/-- A master template whose own front-matter config binds the section
name `sec` and whose body echoes `layout.sec`. -/
def masterC1 : Template :=
  { isAsync := false, isLayout := false, master := none
    config := jobj [("sec", .str "cfg")]
    templates := [("body", fun args =>
      .ok (.str (jsToString (getField (args.getD 0 .undefined) "sec"))))]
    viewData := [], shortcuts := [], express := {}
    dirname := "d", filename := "d/m.dot" }

/-- A child template declaring `layout: m.dot` and defining section
`sec`. -/
def childC1 : Template :=
  { isAsync := false, isLayout := true, master := some "d/m.dot"
    config := jobj [("layout", .str "m.dot")]
    templates := [("sec", fun _ => .ok (.str "kid"))]
    viewData := [], shortcuts := [], express := {}
    dirname := "d", filename := "d/c.dot" }

/-- Loader environment resolving `masterC1`. -/
def envC1 : String → Option Template :=
  fun p => if p = "d/m.dot" then some masterC1 else none

/-- A master like `masterC1` but whose config does NOT bind `sec`. -/
def masterC1w : Template :=
  { isAsync := false, isLayout := false, master := none
    config := jobj [("title", .str "T")]
    templates := [("body", fun args =>
      .ok (.str (jsToString (getField (args.getD 0 .undefined) "sec"))))]
    viewData := [], shortcuts := [], express := {}
    dirname := "d", filename := "d/m.dot" }

/-- A child for the two-level witness, targeting `masterC1w`. -/
def childC1w : Template :=
  { isAsync := false, isLayout := true, master := some "d/m.dot"
    config := jobj [("layout", .str "m.dot")]
    templates := [("sec", fun _ => .ok (.str "kid"))]
    viewData := [], shortcuts := [], express := {}
    dirname := "d", filename := "d/c.dot" }

/-- Loader environment resolving `masterC1w`. -/
def envC1w : String → Option Template :=
  fun p => if p = "d/m.dot" then some masterC1w else none

/-- The layout model after `childC1w`'s sections have run. -/
def LC1w : JVal :=
  .objCons "layout" (.str "m.dot") (.objCons "sec" (.str "kid") (.objNil 1))

section SmokeTests

example : truthy (JVal.str "") = false := by decide

example :
    mergeVal (jobj [("a", jobj [("x", .num 1)])]) (jobj [("a", jobj [("y", .num 2)])]) =
      jobj [("a", jobj [("x", .num 1), ("y", .num 2)])] := by decide

example :
    unionJ [JVal.null, JVal.str "a", JVal.null, JVal.str "a", JVal.num 3] =
      [JVal.null, JVal.str "a", JVal.num 3] := by decide

example :
    seedLayoutModel (jobj [("k", .str "fromlayout"), ("o", .str "keep")])
        (jobj [("k", .str "fromconfig")]) =
      JVal.objCons "k" (.str "fromconfig") (.objCons "o" (.str "keep") (.objNil 1)) := by
  decide

example :
    assignJ [JVal.objNil 3, jobj [("a", .num 1), ("b", .num 2)], jobj [("b", .num 3)]] =
      JVal.objCons "a" (.num 1) (.objCons "b" (.num 3) (.objNil 3)) := by decide

example : extractConfig "---\na: 1\n---\nhello".data = some "\na: 1\n".data := by decide

example : extractConfig "------".data = none := by decide

example : extractConfig "-------".data = some "-".data := by decide

example : defineScan "x[[##section:test-child#]]y".data = [("section", "test-child")] := by
  decide

example :
    defineScan "[[## a :v1#]]mid[[##b=v2#]][[## a =v3#]]".data =
      [("a", "v3"), ("b", "v2")] := by decide

example : awaitRewrite "x partial(a) y" = "x await partial(a) y" := by decide

example : awaitRewrite "await partial(a)" = "await partial(a)" := by decide

example : awaitRewrite "await  \n partial(a)" = "await  \n partial(a)" := by decide

example : awaitRewrite "xpartial(a)" = "xpartial(a)" := by decide

example : awaitRewrite "xawait partial(a)" = "xawait partial(a)" := by decide

example : awaitRewrite "[[=partial ('p.dot')]]" = "[[=await partial ('p.dot')]]" := by decide

example :
    awaitRewrite "await partial(partial(x))" = "await partial(await partial(x))" := by
  decide

example : stripCommentsGo 0 "a<!--zap-->b".data = "ab".data := by decide

example :
    Template.render settings (fun _ => none) 1
      { isAsync := false, isLayout := false, master := none, config := .objNil 0
        templates := [("body", fun args =>
          .ok (.str ("test-view " ++ jsToString (getField (args.getD 3 .undefined) "test"))))]
        viewData := [], shortcuts := [], express := {}
        dirname := "path/views", filename := "path/views/child.dot" }
      ⟨.undefined, jobj [("test", .str "test-model")], false⟩ = .ok "test-view test-model" := rfl

example :
    Template.render settings
      (fun p =>
        if p = "path/views/master.dot" then
          some
            { isAsync := false, isLayout := false, master := none, config := .objNil 0
              templates := [("body", fun args =>
                .ok (.str ("test-master " ++ jsToString (getField (args.getD 0 .undefined) "section"))))]
              viewData := [], shortcuts := [], express := {}
              dirname := "path/views", filename := "path/views/master.dot" }
        else none)
      2
      { isAsync := false, isLayout := true, master := some "path/views/master.dot"
        config := jobj [("layout", .str "master.dot")]
        templates := [("section", fun _ => .ok (.str "test-child"))]
        viewData := [], shortcuts := [], express := {}
        dirname := "path/views", filename := "path/views/child.dot" }
      ⟨.undefined, .objNil 0, false⟩ = .ok "test-master test-child" := rfl

end SmokeTests

/-! ## Object and lodash lemmas -/

/-- Setting one key leaves every other key unchanged. -/
theorem getFieldOpt_setField_ne (v : JVal) (k0 k : String) (w : JVal) (h : k0 ≠ k) :
    getFieldOpt (setField v k0 w) k = getFieldOpt v k := by
  induction v with
  | objCons k1 v1 rest ihv ihr =>
      by_cases h1 : k1 = k0
      · subst h1
        simp [setField, getFieldOpt, h]
      · simp [setField, getFieldOpt, h1, ihr]
  | objNil r => simp [setField, getFieldOpt, h]
  | _ => simp [setField, getFieldOpt]

/-- Setting a key on a well-formed object makes it readable. -/
theorem getFieldOpt_setField_self (v : JVal) (k : String) (w : JVal)
    (h : isWfObj v = true) : getFieldOpt (setField v k w) k = some w := by
  induction v with
  | objCons k1 v1 rest ihv ihr =>
      by_cases h1 : k1 = k
      · subst h1
        simp [setField, getFieldOpt]
      · simp only [isWfObj] at h
        simp [setField, getFieldOpt, h1, ihr h]
  | objNil r => simp [setField, getFieldOpt]
  | _ => simp [isWfObj] at h

/-- `setField` preserves well-formedness. -/
theorem isWfObj_setField (v : JVal) (k : String) (w : JVal) :
    isWfObj (setField v k w) = isWfObj v := by
  induction v with
  | objCons k1 v1 rest ihv ihr =>
      by_cases h1 : k1 = k
      · subst h1
        simp [setField, isWfObj]
      · simp [setField, isWfObj, h1, ihr]
  | objNil r => simp [setField, isWfObj]
  | _ => simp [setField]

/-- `setField` preserves objecthood. -/
theorem isObjLike_setField (v : JVal) (k : String) (w : JVal)
    (h : isObjLike v = true) : isObjLike (setField v k w) = true := by
  cases v with
  | objCons k1 v1 rest =>
      by_cases h1 : k1 = k
      · subst h1
        simp [setField, isObjLike]
      · simp [setField, isObjLike, h1]
  | objNil r => simp [setField, isObjLike]
  | _ => simp [isObjLike] at h

/-- A well-formed value is an object. -/
theorem isObjLike_of_isWfObj (v : JVal) (h : isWfObj v = true) :
    isObjLike v = true := by
  cases v <;> simp_all [isWfObj, isObjLike]

/-- Unfolding of `mergeVal` on a source field, in terms of
`mergeUpdated`. -/
theorem mergeVal_cons (dst : JVal) (k0 : String) (sv rest : JVal) :
    mergeVal dst (.objCons k0 sv rest) = mergeVal (mergeUpdated dst k0 sv) rest := rfl

/-- `mergeVal` on an empty-object source keeps an object destination. -/
theorem mergeVal_objNil (dst : JVal) (r : Nat) (h : isObjLike dst = true) :
    mergeVal dst (.objNil r) = dst := by
  simp [mergeVal, h]

/-- One merge step only touches its own key. -/
theorem mergeUpdated_lookup_ne (dst : JVal) (k0 k : String) (sv : JVal)
    (hne : k0 ≠ k) (hdst : isObjLike dst = true) :
    getFieldOpt (mergeUpdated dst k0 sv) k = getFieldOpt dst k := by
  unfold mergeUpdated
  simp only [hdst, if_true]
  cases hdv : getFieldOpt dst k0 with
  | some dv =>
      by_cases hobj : (isObjLike dv && isObjLike sv) = true
      · simp [hobj, getFieldOpt_setField_ne _ _ _ _ hne]
      · simp only [Bool.not_eq_true] at hobj
        simp only [hobj]
        cases sv <;> simp [getFieldOpt_setField_ne _ _ _ _ hne]
  | none =>
      cases sv <;> simp [getFieldOpt_setField_ne _ _ _ _ hne]

/-- One merge step preserves objecthood. -/
theorem mergeUpdated_objLike (dst : JVal) (k0 : String) (sv : JVal)
    (hdst : isObjLike dst = true) : isObjLike (mergeUpdated dst k0 sv) = true := by
  unfold mergeUpdated
  simp only [hdst, if_true]
  cases hdv : getFieldOpt dst k0 with
  | some dv =>
      by_cases hobj : (isObjLike dv && isObjLike sv) = true
      · simp [hobj, isObjLike_setField _ _ _ hdst]
      · simp only [Bool.not_eq_true] at hobj
        simp only [hobj]
        cases sv <;> simp [isObjLike_setField _ _ _ hdst, hdst]
  | none =>
      cases sv <;> simp [isObjLike_setField _ _ _ hdst, hdst]

/-- One merge step preserves well-formedness. -/
theorem mergeUpdated_wf (dst : JVal) (k0 : String) (sv : JVal)
    (hdst : isWfObj dst = true) : isWfObj (mergeUpdated dst k0 sv) = true := by
  have hobjd := isObjLike_of_isWfObj dst hdst
  unfold mergeUpdated
  simp only [hobjd, if_true]
  cases hdv : getFieldOpt dst k0 with
  | some dv =>
      by_cases hobj : (isObjLike dv && isObjLike sv) = true
      · simp [hobj, isWfObj_setField, hdst]
      · simp only [Bool.not_eq_true] at hobj
        simp only [hobj]
        cases sv <;> simp [isWfObj_setField, hdst]
  | none =>
      cases sv <;> simp [isWfObj_setField, hdst]

/-- Merging a source whose keys avoid `k` leaves the value at `k`
unchanged. -/
theorem mergeVal_lookup_notin (src : JVal) (hsrc : isWfObj src = true) :
    ∀ (dst : JVal) (k : String), isObjLike dst = true → k ∉ objKeys src →
      getFieldOpt (mergeVal dst src) k = getFieldOpt dst k := by
  induction src with
  | objCons k0 sv rest ihv ihr =>
      intro dst k hdst hk
      simp only [objKeys, List.mem_cons, not_or] at hk
      simp only [isWfObj] at hsrc
      rw [mergeVal_cons, ihr hsrc _ _ (mergeUpdated_objLike _ _ _ hdst) hk.2,
        mergeUpdated_lookup_ne _ _ _ _ (fun hh => hk.1 hh.symm) hdst]
  | objNil r =>
      intro dst k hdst _
      rw [mergeVal_objNil _ _ hdst]
  | _ =>
      intro dst k hdst hk
      simp [isWfObj] at hsrc

/-- `mergeVal` of well-formed objects is well-formed. -/
theorem mergeVal_wf (src : JVal) (hsrc : isWfObj src = true) :
    ∀ (dst : JVal), isWfObj dst = true → isWfObj (mergeVal dst src) = true := by
  induction src with
  | objCons k0 sv rest ihv ihr =>
      intro dst hdst
      simp only [isWfObj] at hsrc
      rw [mergeVal_cons]
      exact ihr hsrc _ (mergeUpdated_wf _ _ _ hdst)
  | objNil r =>
      intro dst hdst
      rw [mergeVal_objNil _ _ (isObjLike_of_isWfObj _ hdst)]
      exact hdst
  | _ =>
      intro dst hdst
      simp [isWfObj] at hsrc

/-- One merge step writes a primitive source value at its key. -/
theorem mergeUpdated_lookup_self_prim (dst : JVal) (k0 : String) (sv : JVal)
    (hdst : isWfObj dst = true) (h1 : isObjLike sv = false) (h2 : sv ≠ .undefined) :
    getFieldOpt (mergeUpdated dst k0 sv) k0 = some sv := by
  have hobjd := isObjLike_of_isWfObj dst hdst
  unfold mergeUpdated
  simp only [hobjd, if_true]
  cases hdv : getFieldOpt dst k0 with
  | some dv =>
      have hobj : (isObjLike dv && isObjLike sv) = false := by simp [h1]
      simp only [hobj, Bool.false_eq_true, if_false]
      cases sv <;> simp_all [getFieldOpt_setField_self _ _ _ hdst]
  | none =>
      cases sv <;> simp_all [getFieldOpt_setField_self _ _ _ hdst]

/-- Merging a source with distinct keys into a destination that does not
yet bind `k` installs the source value at `k` verbatim. -/
theorem mergeVal_lookup_new (src : JVal) (hsrc : isWfObj src = true) :
    ∀ (dst : JVal) (k : String) (w : JVal), isWfObj dst = true →
      (objKeys src).Nodup → getFieldOpt src k = some w → w ≠ .undefined →
      getFieldOpt dst k = none →
      getFieldOpt (mergeVal dst src) k = some w := by
  induction src with
  | objCons k0 sv rest ihv ihr =>
      intro dst k w hdst hnd hlk hw hdk
      simp only [isWfObj] at hsrc
      simp only [objKeys, List.nodup_cons] at hnd
      rw [mergeVal_cons]
      by_cases hk : k0 = k
      · subst hk
        simp only [getFieldOpt, beq_self_eq_true, if_true, Option.some.injEq] at hlk
        subst hlk
        rw [mergeVal_lookup_notin rest hsrc _ _
          (mergeUpdated_objLike _ _ _ (isObjLike_of_isWfObj _ hdst)) hnd.1]
        unfold mergeUpdated
        simp only [isObjLike_of_isWfObj _ hdst, if_true, hdk]
        cases sv <;> simp_all [getFieldOpt_setField_self _ _ _ hdst]
      · have hlk2 : getFieldOpt rest k = some w := by
          simpa [getFieldOpt, hk] using hlk
        refine ihr hsrc _ _ _ (mergeUpdated_wf _ _ _ hdst) hnd.2 hlk2 hw ?_
        rw [mergeUpdated_lookup_ne _ _ _ _ hk (isObjLike_of_isWfObj _ hdst)]
        exact hdk
  | objNil r =>
      intro dst k w hdst hnd hlk hw hdk
      simp [getFieldOpt] at hlk
  | _ =>
      intro dst k w hdst hnd hlk hw hdk
      simp [isWfObj] at hsrc

/-- Merging a source that binds `k` (distinct keys) to a primitive,
non-`undefined` value overrides whatever the destination held at `k`. -/
theorem mergeVal_lookup_override (src : JVal) (hsrc : isWfObj src = true) :
    ∀ (dst : JVal) (k : String) (v : JVal), isWfObj dst = true →
      (objKeys src).Nodup → getFieldOpt src k = some v →
      isObjLike v = false → v ≠ .undefined →
      getFieldOpt (mergeVal dst src) k = some v := by
  induction src with
  | objCons k0 sv rest ihv ihr =>
      intro dst k v hdst hnd hlk hv1 hv2
      simp only [isWfObj] at hsrc
      simp only [objKeys, List.nodup_cons] at hnd
      rw [mergeVal_cons]
      by_cases hk : k0 = k
      · subst hk
        simp only [getFieldOpt, beq_self_eq_true, if_true, Option.some.injEq] at hlk
        subst hlk
        rw [mergeVal_lookup_notin rest hsrc _ _
          (mergeUpdated_objLike _ _ _ (isObjLike_of_isWfObj _ hdst)) hnd.1]
        exact mergeUpdated_lookup_self_prim _ _ _ hdst hv1 hv2
      · have hlk2 : getFieldOpt rest k = some v := by
          simpa [getFieldOpt, hk] using hlk
        exact ihr hsrc _ _ _ (mergeUpdated_wf _ _ _ hdst) hnd.2 hlk2 hv1 hv2
  | objNil r =>
      intro dst k v hdst hnd hlk hv1 hv2
      simp [getFieldOpt] at hlk
  | _ =>
      intro dst k v hdst hnd hlk hv1 hv2
      simp [isWfObj] at hsrc

/-- The dedup fold underlying `unionJ`: it preserves distinctness and
its membership is the union of the accumulator's and the input's. -/
theorem unionJ_fold (l : List JVal) :
    ∀ acc : List JVal, acc.Nodup →
      (l.foldl (fun acc v => if v ∈ acc then acc else acc ++ [v]) acc).Nodup ∧
      (∀ v, v ∈ l.foldl (fun acc v => if v ∈ acc then acc else acc ++ [v]) acc ↔
        v ∈ acc ∨ v ∈ l) := by
  induction l with
  | nil => intro acc h; simp [h]
  | cons x t ih =>
      intro acc h
      simp only [List.foldl_cons]
      by_cases hx : x ∈ acc
      · simp only [hx, if_true]
        obtain ⟨h1, h2⟩ := ih acc h
        refine ⟨h1, fun v => ?_⟩
        rw [h2 v, List.mem_cons]
        constructor
        · rintro (hv | hv)
          · exact Or.inl hv
          · exact Or.inr (Or.inr hv)
        · rintro (hv | hv | hv)
          · exact Or.inl hv
          · exact Or.inl (hv ▸ hx)
          · exact Or.inr hv
      · simp only [hx, if_false]
        have hnd : (acc ++ [x]).Nodup := by
          simp [List.nodup_append, h, hx]
        obtain ⟨h1, h2⟩ := ih (acc ++ [x]) hnd
        refine ⟨h1, fun v => ?_⟩
        rw [h2 v, List.mem_append, List.mem_singleton, List.mem_cons]
        tauto

/-- `unionJ` produces a duplicate-free list with exactly the values of
its input. -/
theorem unionJ_spec (l : List JVal) :
    (unionJ l).Nodup ∧ (∀ v, v ∈ unionJ l ↔ v ∈ l) := by
  have h := unionJ_fold l [] List.nodup_nil
  simpa [unionJ] using h

/-- `assignOne` does not change well-formedness of the accumulator. -/
theorem isWfObj_assignOne (src : JVal) :
    ∀ acc : JVal, isWfObj (assignOne acc src) = isWfObj acc := by
  induction src with
  | objCons k0 v0 rest ihv ihr =>
      intro acc
      simp [assignOne, ihr, isWfObj_setField]
  | _ => intro acc; simp [assignOne]

/-- Fields absent from the source fall through `assignOne`. -/
theorem assignOne_lookup_none (src : JVal) :
    ∀ (acc : JVal) (k : String), getFieldOpt src k = none →
      getFieldOpt (assignOne acc src) k = getFieldOpt acc k := by
  induction src with
  | objCons k0 v0 rest ihv ihr =>
      intro acc k hlk
      by_cases hk : k0 = k
      · subst hk
        simp [getFieldOpt] at hlk
      · have hlk2 : getFieldOpt rest k = none := by
          simpa [getFieldOpt, hk] using hlk
        simp [assignOne, ihr _ _ hlk2, getFieldOpt_setField_ne _ _ _ _ hk]
  | _ => intro acc k hlk; simp [assignOne]

/-- Fields present in a duplicate-free source override through
`assignOne`. -/
theorem assignOne_lookup_some (src : JVal) :
    ∀ (acc : JVal) (k : String) (v : JVal), isWfObj acc = true →
      (objKeys src).Nodup → getFieldOpt src k = some v →
      getFieldOpt (assignOne acc src) k = some v := by
  induction src with
  | objCons k0 v0 rest ihv ihr =>
      intro acc k v hacc hnd hlk
      simp only [objKeys, List.nodup_cons] at hnd
      by_cases hk : k0 = k
      · subst hk
        simp only [getFieldOpt, beq_self_eq_true, if_true, Option.some.injEq] at hlk
        subst hlk
        have hrest : getFieldOpt rest k0 = none := by
          cases hr : getFieldOpt rest k0 with
          | none => rfl
          | some w =>
              exfalso
              apply hnd.1
              clear hnd ihv ihr hacc
              induction rest with
              | objCons k1 v1 rest2 ih1 ih2 =>
                  by_cases h1 : k1 = k0
                  · simp [objKeys, h1]
                  · simp only [getFieldOpt, h1] at hr
                    simp only [objKeys, List.mem_cons]
                    right
                    exact ih2 (by simpa [getFieldOpt, h1] using hr)
              | _ => simp [getFieldOpt] at hr
        rw [assignOne, assignOne_lookup_none rest _ _ hrest,
          getFieldOpt_setField_self _ _ _ hacc]
      · have hlk2 : getFieldOpt rest k = some v := by
          simpa [getFieldOpt, hk] using hlk
        rw [assignOne]
        exact ihr _ _ _ (by rw [isWfObj_setField]; exact hacc) hnd.2 hlk2
  | _ =>
      intro acc k v hacc hnd hlk
      simp [getFieldOpt] at hlk

/-- Every entry of an upserted section map is an old entry or the
upserted pair. -/
theorem mem_sectUpsert (secs : List (String × String)) (k v : String)
    (q : String × String) (h : q ∈ sectUpsert secs k v) : q ∈ secs ∨ q = (k, v) := by
  unfold sectUpsert at h
  by_cases hc : secs.any (fun p => p.1 == k) = true
  · simp only [hc, if_true, List.mem_map] at h
    obtain ⟨p, hp, hq⟩ := h
    by_cases hk : p.1 = k
    · right
      simp only [hk, beq_self_eq_true, if_true] at hq
      exact hq.symm
    · left
      have hpq : p = q := by simpa [hk] using hq
      exact hpq ▸ hp
  · simp only [hc, Bool.false_eq_true, if_false, List.mem_append, List.mem_singleton] at h
    exact h

/-- Every entry of the fold of upserts is an accumulator entry or one of
the folded pairs. -/
theorem mem_upsertFold (l : List (String × String)) :
    ∀ (acc : List (String × String)) (q : String × String),
      q ∈ l.foldl (fun a p => sectUpsert a p.1 p.2) acc → q ∈ acc ∨ q ∈ l := by
  induction l with
  | nil => intro acc q h; simpa using h
  | cons p t ih =>
      intro acc q h
      simp only [List.foldl_cons] at h
      rcases ih _ _ h with h2 | h2
      · rcases mem_sectUpsert _ _ _ _ h2 with h3 | h3
        · exact Or.inl h3
        · exact Or.inr (List.mem_cons.mpr (Or.inl h3))
      · exact Or.inr (List.mem_cons_of_mem _ h2)

/-- Every pair produced by the define scan arises from an actual match
of the section-definition regex at some position of the text. -/
theorem defineScanGo_sound (cs : List Char) :
    ∀ (skip : Nat) (q : String × String), q ∈ defineScanGo skip cs →
      ∃ i n, matchDefine (cs.drop i) = some (n, q.1, q.2) := by
  induction cs with
  | nil => intro skip q h; cases skip <;> simp [defineScanGo] at h
  | cons c t ih =>
      intro skip q h
      cases skip with
      | succ s =>
          simp only [defineScanGo] at h
          obtain ⟨i, n, hi⟩ := ih s q h
          exact ⟨i + 1, n, by simpa using hi⟩
      | zero =>
          rw [defineScanGo] at h
          cases hm : matchDefine (c :: t) with
          | some res =>
              rw [hm] at h
              rcases List.mem_cons.mp h with h2 | h2
              · refine ⟨0, res.1, ?_⟩
                rw [List.drop_zero, hm, h2]
              · obtain ⟨i, n, hi⟩ := ih _ q h2
                exact ⟨i + 1, n, by simpa using hi⟩
          | none =>
              rw [hm] at h
              obtain ⟨i, n, hi⟩ := ih 0 q h
              exact ⟨i + 1, n, by simpa using hi⟩

/-- Every entry of `defineScan` is one of the scanned pairs. -/
theorem mem_defineScan (cs : List Char) (q : String × String)
    (h : q ∈ defineScan cs) : q ∈ defineScanGo 0 cs := by
  unfold defineScan at h
  rcases mem_upsertFold _ _ _ h with h2 | h2
  · simp at h2
  · exact h2

/-- The sync section loop splits over list concatenation: the suffix
runs only when the whole prefix succeeded, on the layout model the
prefix produced. -/
theorem renderSectionsSync_append (t : Template) (model : JVal)
    (xs ys : List (String × SectFn)) :
    ∀ L : JVal,
      renderSectionsSync t model L (xs ++ ys) =
        match renderSectionsSync t model L xs with
        | .ok L2 => renderSectionsSync t model L2 ys
        | .error e => .error e := by
  induction xs with
  | nil => intro L; simp [renderSectionsSync]
  | cons p rest ih =>
      intro L
      obtain ⟨key, f⟩ := p
      rw [List.cons_append, renderSectionsSync, renderSectionsSync]
      cases hbv : buildViewModel L (.fn 0) model t.viewData t.shortcuts with
      | error e => rfl
      | ok args =>
          cases hf : f args with
          | error e => simp only [hf]
          | ok v =>
              simp only [hf]
              exact ih _

/-- A matched call region is non-empty. -/
theorem matchCall_pos (cs : List Char) (n : Nat) (h : matchCall cs = some n) :
    1 ≤ n := by
  unfold matchCall at h
  split at h
  · dsimp only at h
    split at h
    · split at h
      · simp only [Option.some.injEq] at h
        omega
      · exact absurd h (by simp)
    · exact absurd h (by simp)
  · exact absurd h (by simp)

/-- Rebuilding a string from its character list. -/
theorem stringMkData (s : String) : String.mk s.data = s := rfl

/-- The tokenizing scan and the rewriting scan agree: the tokens flatten
back to the unconsumed input, and the rewrite is exactly the awaited
flattening of the tokens. -/
theorem scanToksGo_agree (rest : List Char) :
    ∀ (skip : Nat) (done : List Char),
      flattenToks (scanToksGo skip done rest) = rest.drop skip ∧
      awaitGo skip done rest = flattenAwaited (scanToksGo skip done rest) := by
  induction rest with
  | nil =>
      intro skip done
      cases skip <;> simp [scanToksGo, awaitGo, flattenToks, flattenAwaited]
  | cons c t ih =>
      intro skip done
      cases skip with
      | succ s =>
          simp only [scanToksGo, awaitGo, List.drop_succ_cons]
          exact ih s (c :: done)
      | zero =>
          by_cases hcond : (boundaryB done && !awaitPreceded done) = true
          · rw [scanToksGo, awaitGo]
            simp only [hcond, if_true]
            cases hm : matchCall (c :: t) with
            | some n =>
                obtain ⟨m, rfl⟩ : ∃ m, n = m + 1 := by
                  have := matchCall_pos _ _ hm
                  exact ⟨n - 1, by omega⟩
                constructor
                · simp only [flattenToks, stringMkData, List.drop_zero]
                  rw [(ih (m + 1 - 1) (c :: done)).1]
                  simp [List.take_succ_cons]
                · simp only [flattenAwaited]
                  rw [(ih (m + 1 - 1) (c :: done)).2]
            | none =>
                constructor
                · simp only [flattenToks, List.drop_zero]
                  rw [(ih 0 (c :: done)).1]
                  simp
                · simp only [flattenAwaited]
                  rw [(ih 0 (c :: done)).2]
          · rw [scanToksGo, awaitGo]
            simp only [hcond, Bool.false_eq_true, if_false]
            constructor
            · simp only [flattenToks, List.drop_zero]
              rw [(ih 0 (c :: done)).1]
              simp
            · simp only [flattenAwaited]
              rw [(ih 0 (c :: done)).2]

/-- A cached template lies in the store it was read from. -/
theorem cacheGet_mem (c : CacheStore) (k : String) (t : Template)
    (h : cacheGet c k = some t) : (k, t) ∈ c := by
  unfold cacheGet at h
  cases hf : c.find? (fun p => p.1 == k) with
  | none => rw [hf] at h; simp at h
  | some p =>
      rw [hf] at h
      simp only [Option.map_some', Option.some.injEq] at h
      have hmem := List.mem_of_find?_eq_some hf
      have hkey := List.find?_some hf
      simp only [beq_iff_eq] at hkey
      have : p = (k, t) := by
        obtain ⟨p1, p2⟩ := p
        simp_all
      exact this ▸ hmem

/-- Every entry after a cache write is an old entry or the written
pair. -/
theorem mem_cacheSet (c : CacheStore) (k : String) (t : Template)
    (q : String × Template) (h : q ∈ cacheSet c k t) : q ∈ c ∨ q = (k, t) := by
  unfold cacheSet at h
  by_cases hc : c.any (fun p => p.1 == k) = true
  · simp only [hc, if_true, List.mem_map] at h
    obtain ⟨p, hp, hq⟩ := h
    by_cases hk : p.1 = k
    · right
      simp only [hk, beq_self_eq_true, if_true] at hq
      exact hq.symm
    · left
      have hpq : p = q := by simpa [hk] using hq
      exact hpq ▸ hp
  · simp only [hc, Bool.false_eq_true, if_false, List.mem_append, List.mem_singleton] at h
    exact h

/-- The sync build pipeline always yields a sync-mode template. -/
theorem buildTemplate_sync (yamlLoad : String → JVal) (stg : EngineSettings)
    (compile : String → SectFn) (load : String → Option String)
    (filename : String) (options : ExpressOpts) (t : Template)
    (h : buildTemplate yamlLoad stg compile load filename options = .ok t) :
    t.isAsync = false := by
  unfold buildTemplate at h
  cases hl : load filename with
  | none => rw [hl] at h; simp at h
  | some str =>
      rw [hl] at h
      simp only [Except.ok.injEq] at h
      rw [← h]
      rfl

/-- The async build pipeline always yields an async-mode template. -/
theorem buildTemplateAsync_async (yamlLoad : String → JVal) (stg : EngineSettings)
    (compileA : String → SectFn) (load : String → Option String)
    (filename : String) (options : ExpressOpts) (t : Template)
    (h : buildTemplateAsync yamlLoad stg compileA load filename options = .ok t) :
    t.isAsync = true := by
  unfold buildTemplateAsync at h
  cases hl : load filename with
  | none => rw [hl] at h; simp at h
  | some str =>
      rw [hl] at h
      simp only [Except.ok.injEq] at h
      rw [← h]
      rfl

/-! ## Claim C5 -/

/-- C5 counterexample: for a template with a leading front-matter block
and no layout key, the parser's sole body section is the ENTIRE input
text — the front-matter block is not removed (the `replace` result is
discarded at src/index.js line 534), contradicting the claim that the
body equals the remaining text after the front matter. -/
theorem c5_counterexample :
    (processTemplateString (fun _ => jobj [("title", .str "t")]) settings {}
        "---t---hello" false).sections = [("body", "---t---hello")] ∧
    ("---t---hello" : String) ≠ "hello" := by
  constructor
  · rfl
  · decide

/-- C5 (amended): for every template text with a leading front-matter
block whose parsed config has no truthy layout value (comment stripping
off, as by default), the sole body section is the ORIGINAL text
verbatim, front-matter block included. -/
theorem c5_body_verbatim (yamlLoad : String → JVal) (stg : EngineSettings)
    (options : ExpressOpts) (str : String) (conf : List Char)
    (hsc : stg.stripComment = false)
    (hfm : extractConfig str.data = some conf)
    (hlay : truthy (getField (yamlLoad (String.mk conf)) "layout") = false) :
    (processTemplateString yamlLoad stg options str false).sections = [("body", str)] := by
  unfold processTemplateString
  simp [hfm, hsc, hlay]

/-- C5 witness. -/
theorem c5_body_verbatim_witness :
    (processTemplateString (fun _ => jobj [("a", .num 1)]) settings {}
        "---x---body text" false).sections = [("body", "---x---body text")] :=
  c5_body_verbatim _ _ _ _ "x".data rfl (by decide) (by decide)

/-! ## Claim C6 -/

/-- C6 counterexample: the parser branches on the TRUTHINESS of
`config.layout`, not on key presence.  A config that binds `layout` to
the empty string (falsy) takes the body branch, so the layout key is
present yet the sections mapping holds a single `body` entry that does
not come from any named-definition region. -/
theorem c6_counterexample :
    (getFieldOpt (processTemplateString (fun _ => jobj [("layout", .str "")]) settings {}
        "---x---[[##a:b#]]" false).config "layout").isSome = true ∧
    (processTemplateString (fun _ => jobj [("layout", .str "")]) settings {}
        "---x---[[##a:b#]]" false).sections = [("body", "---x---[[##a:b#]]")] ∧
    defineScan "---x---[[##a:b#]]".data = [("a", "b")] ∧
    ("body", "---x---[[##a:b#]]") ∉ defineScan "---x---[[##a:b#]]".data := by
  refine ⟨rfl, rfl, by decide, by decide⟩

/-- C6 (amended): with comment stripping off, if the parsed config has
no TRUTHY layout value the sections mapping is exactly the single
`body` entry; if the layout value is truthy, the sections mapping is
exactly the (rewritten in async mode) define-scan of the text — in
particular empty when the text has no section definitions — and every
define-scan entry arises from an actual match of the section-definition
regex at some position of the text. -/
theorem c6_sections_invariant (yamlLoad : String → JVal) (stg : EngineSettings)
    (options : ExpressOpts) (str : String) (isAsync : Bool)
    (hsc : stg.stripComment = false) :
    (truthy (getField (processTemplateString yamlLoad stg options str isAsync).config
        "layout") = false →
      (processTemplateString yamlLoad stg options str isAsync).sections =
        [("body", if isAsync then awaitRewrite str else str)]) ∧
    (truthy (getField (processTemplateString yamlLoad stg options str isAsync).config
        "layout") = true →
      (processTemplateString yamlLoad stg options str isAsync).sections =
        (defineScan str.data).map
          (fun p => (p.1, if isAsync then awaitRewrite p.2 else p.2)) ∧
      (defineScan str.data = [] →
        (processTemplateString yamlLoad stg options str isAsync).sections = [])) ∧
    (∀ q ∈ defineScan str.data,
      ∃ i n, matchDefine (str.data.drop i) = some (n, q.1, q.2)) := by
  refine ⟨?_, ?_, ?_⟩
  · intro h
    unfold processTemplateString at h ⊢
    simp only [hsc, Bool.false_eq_true, if_false] at h ⊢
    cases isAsync <;> simp_all
  · intro h
    unfold processTemplateString at h ⊢
    simp only [hsc, Bool.false_eq_true, if_false] at h ⊢
    cases isAsync <;> simp_all
  · intro q hq
    exact defineScanGo_sound _ 0 q (mem_defineScan _ _ hq)

/-- C6 witness. -/
theorem c6_sections_invariant_witness :
    (processTemplateString (fun _ => jobj [("layout", .str "m.dot")]) settings {}
        "---x---[[##a:b#]]text" false).sections = [("a", "b")] := by
  have h := (c6_sections_invariant (fun _ => jobj [("layout", .str "m.dot")]) settings {}
      "---x---[[##a:b#]]text" false rfl).2.1 (by decide)
  rw [h.1]
  decide

/-! ## Claim C7 -/

/-- C7 counterexample: `layoutModel` is seeded with
`_.merge({}, layout, config)`, which merges nested objects RECURSIVELY;
the claim's shallow merge (config value replaces the layout value
outright) disagrees on any key bound to objects on both sides. -/
theorem c7_counterexample :
    seedLayoutModel (jobj [("meta", jobj [("x", .num 1)])])
        (jobj [("meta", jobj [("y", .num 2)])]) ≠
      shallowMergeSpec (jobj [("meta", jobj [("x", .num 1)])])
        (jobj [("meta", jobj [("y", .num 2)])]) ∧
    getField (seedLayoutModel (jobj [("meta", jobj [("x", .num 1)])])
        (jobj [("meta", jobj [("y", .num 2)])])) "meta" =
      JVal.objCons "x" (.num 1) (.objCons "y" (.num 2) (.objNil 0)) ∧
    getField (shallowMergeSpec (jobj [("meta", jobj [("x", .num 1)])])
        (jobj [("meta", jobj [("y", .num 2)])])) "meta" = jobj [("y", .num 2)] := by
  refine ⟨by decide, by decide, by decide⟩

/-- C7 (amended): the render seeding `_.merge({}, layout, config)` is a
lodash DEEP merge.  At the top level: a key absent from the config keeps
the layout-derived value (both in the lookup-level sense and, for
well-formed duplicate-free layouts, with the layout's own value); a key
bound in the config to a primitive, non-`undefined` value takes the
config value; nested objects however are merged recursively, as the
counterexample exhibits, rather than replaced. -/
theorem c7_seed_merge :
    (∀ (layout config : JVal) (k : String),
        isWfObj config = true →
        isObjLike (mergeVal (.objNil 1) layout) = true →
        k ∉ objKeys config →
        getFieldOpt (seedLayoutModel layout config) k =
          getFieldOpt (mergeVal (.objNil 1) layout) k) ∧
    (∀ (layout config : JVal) (k : String) (w : JVal),
        isWfObj layout = true → (objKeys layout).Nodup →
        getFieldOpt layout k = some w → w ≠ .undefined →
        isWfObj config = true → k ∉ objKeys config →
        getFieldOpt (seedLayoutModel layout config) k = some w) ∧
    (∀ (layout config : JVal) (k : String) (v : JVal),
        (isWfObj layout = true ∨ layout = .undefined) →
        isWfObj config = true → (objKeys config).Nodup →
        getFieldOpt config k = some v → isObjLike v = false → v ≠ .undefined →
        getFieldOpt (seedLayoutModel layout config) k = some v) := by
  have hinner : ∀ layout : JVal, isWfObj layout = true ∨ layout = .undefined →
      isWfObj (mergeVal (.objNil 1) layout) = true := by
    intro layout h
    rcases h with h | h
    · exact mergeVal_wf layout h _ rfl
    · rw [h]
      rfl
  refine ⟨?_, ?_, ?_⟩
  · intro layout config k hcfg hobj hk
    exact mergeVal_lookup_notin config hcfg _ k hobj hk
  · intro layout config k w hwf hnd hlk hw hcfg hk
    have h1 : getFieldOpt (mergeVal (.objNil 1) layout) k = some w :=
      mergeVal_lookup_new layout hwf _ k w rfl hnd hlk hw rfl
    show getFieldOpt (mergeVal (mergeVal (.objNil 1) layout) config) k = some w
    rw [mergeVal_lookup_notin config hcfg _ k
      (isObjLike_of_isWfObj _ (hinner layout (Or.inl hwf))) hk]
    exact h1
  · intro layout config k v hlay hcfg hnd hlk hv1 hv2
    exact mergeVal_lookup_override config hcfg _ k v (hinner layout hlay) hnd hlk hv1 hv2

/-- C7 witness. -/
theorem c7_seed_merge_witness :
    getFieldOpt (seedLayoutModel (jobj [("a", .str "L")]) (jobj [("b", .str "C")])) "a" =
      some (.str "L") ∧
    getFieldOpt (seedLayoutModel (jobj [("a", .str "L")]) (jobj [("a", .str "C")])) "a" =
      some (.str "C") := by
  constructor
  · exact c7_seed_merge.2.1 _ _ _ _ (by decide) (by decide) (by decide) (by decide)
      (by decide) (by decide)
  · exact c7_seed_merge.2.2 _ _ _ _ (Or.inl (by decide)) (by decide) (by decide)
      (by decide) (by decide) (by decide)

/-! ## Claim C2 -/

/-- C2: for every template whose parsed config has no layout key
(`isLayout` false), the result of `render` — and of `renderAsync` — is
the process-wide header string concatenated with the stored body-section
output when the render options do not mark the render as a partial, and
the body-section output alone when they do. -/
theorem c2_no_layout_output :
    (∀ (stg : EngineSettings) (getT : String → Option Template) (fuel : Nat)
        (t : Template) (o : RenderOpts) (L : JVal) (b : String),
        t.isLayout = false →
        renderSectionsSync t o.model (seedLayoutModel o.layout t.config)
            t.templates = .ok L →
        getField L "body" = .str b →
        Template.render stg getT (fuel + 1) t o =
          .ok ((if o.isPartial then "" else stg.header) ++ b)) ∧
    (∀ (stg : EngineSettings) (getT : String → Option Template) (fuel : Nat)
        (t : Template) (o : RenderOpts)
        (settled : List (String × Except String String)) (b : String),
        t.isLayout = false →
        collectAsyncSections t o.model (seedLayoutModel o.layout t.config)
            t.templates = .ok settled →
        firstRejection settled = none →
        getField (storeSettled (seedLayoutModel o.layout t.config) settled) "body" =
          .str b →
        Template.renderAsync stg getT (fuel + 1) t o =
          .ok ((if o.isPartial then "" else stg.header) ++ b)) := by
  constructor
  · intro stg getT fuel t o L b hlay hrun hbody
    rw [Template.render, hrun]
    simp only [hlay, Bool.not_false, if_true, hbody, jsToString]
    cases o.isPartial <;> simp
  · intro stg getT fuel t o settled b hlay hcol hrej hbody
    rw [Template.renderAsync, hcol]
    simp only [hrej, hlay, Bool.not_false, if_true, hbody, jsToString]
    cases o.isPartial <;> simp

/-- C2 witness: end-to-end through the parse-and-build pipeline, in both
modes, with an explicit header. -/
theorem c2_no_layout_output_witness :
    Template.render { header := "H: " } (fun _ => none) 1
        (builtTemplateFromString (fun _ => jobj []) { header := "H: " }
          (fun txt => fun _ => .ok (.str txt)) "hello" "v.dot" {})
        ⟨.undefined, jobj [], false⟩ = .ok "H: hello" ∧
    Template.renderAsync { header := "H: " } (fun _ => none) 1
        (builtTemplateFromStringAsync (fun _ => jobj []) { header := "H: " }
          (fun txt => fun _ => .ok (.jsPromiseOk txt)) "hello" "v.dot" {})
        ⟨.undefined, jobj [], true⟩ = .ok "hello" := by
  constructor
  · exact c2_no_layout_output.1 { header := "H: " } (fun _ => none) 0 _ _
      (JVal.objCons "body" (.str "hello") (.objNil 1)) "hello" rfl (by decide) (by decide)
  · exact c2_no_layout_output.2 { header := "H: " } (fun _ => none) 0 _ _
      [("body", .ok "hello")] "hello" rfl (by decide) rfl (by decide)

/-! ## Claim C8 -/

/-- C8: asynchronous parsing rewrites section bodies by the
`partialAsync` replacement and only by it — the async sections are
exactly the sync sections with `awaitRewrite` applied to every body,
and in sync mode bodies are untouched.  `awaitRewrite` itself
decomposes the input into literal characters and matched `partial(...)`
call regions at unpreceded word boundaries: the tokens flatten back to
the input, the rewrite prepends `await ` to exactly the matched
regions, a position whose match attempt fails (in particular one whose
call is already preceded by the suspension keyword and whitespace) is
copied verbatim, and a successful match emits the keyword plus the
matched region. -/
theorem c8_async_rewrite :
    (∀ (yamlLoad : String → JVal) (stg : EngineSettings) (options : ExpressOpts)
        (str : String),
        stg.stripComment = false →
        (processTemplateString yamlLoad stg options str true).sections =
          ((processTemplateString yamlLoad stg options str false).sections).map
            (fun p => (p.1, awaitRewrite p.2))) ∧
    (∀ s : String, String.mk (flattenToks (scanToks s)) = s) ∧
    (∀ s : String, awaitRewrite s = String.mk (flattenAwaited (scanToks s))) ∧
    (∀ (done : List Char) (c : Char) (t : List Char),
        (boundaryB done && !awaitPreceded done) = false →
        awaitGo 0 done (c :: t) = c :: awaitGo 0 (c :: done) t) ∧
    (∀ (done : List Char) (c : Char) (t : List Char) (n : Nat),
        (boundaryB done && !awaitPreceded done) = true →
        matchCall (c :: t) = some n →
        awaitGo 0 done (c :: t) =
          "await ".data ++ (c :: t).take n ++ awaitGo (n - 1) (c :: done) t) := by
  refine ⟨?_, ?_, ?_, ?_, ?_⟩
  · intro yamlLoad stg options str hsc
    unfold processTemplateString
    simp only [hsc, Bool.false_eq_true, if_false, if_true]
    split
    · simp
    · simp [List.map_map, Function.comp_def]
  · intro s
    have h := (scanToksGo_agree s.data 0 []).1
    rw [scanToks, h, List.drop_zero, stringMkData]
  · intro s
    rw [awaitRewrite, scanToks, (scanToksGo_agree s.data 0 []).2]
  · intro done c t h
    rw [awaitGo]
    simp [h]
  · intro done c t n h hm
    rw [awaitGo]
    simp [h, hm]

/-- C8 witness. -/
theorem c8_async_rewrite_witness :
    (processTemplateString (fun _ => jobj []) settings {}
        "x partial(a) await partial(b)" true).sections =
      [("body", "x await partial(a) await partial(b)")] ∧
    awaitRewrite "q partial(z)" = String.mk (flattenAwaited (scanToks "q partial(z)")) := by
  constructor
  · have h := c8_async_rewrite.1 (fun _ => jobj []) settings {}
      "x partial(a) await partial(b)" rfl
    rw [h]
    decide
  · exact c8_async_rewrite.2.2.1 "q partial(z)"

/-! ## Claim C4 -/

/-- C4 counterexample: the positional argument list is built with
`_.union`, which DEDUPLICATES (SameValueZero).  With two configured
shortcuts whose `_locals` entries are absent, both shortcut values are
`null`; the concatenation described by the claim has six entries but the
section function receives five — the observing section reports an arity
of 5, so the argument list is not "exactly the concatenation". -/
theorem c4_counterexample :
    Template.render settings (fun _ => none) 1
        { isAsync := false, isLayout := false, master := none, config := .objNil 0
          templates := [("body", fun args => .ok (.str (toString args.length)))]
          viewData := [], shortcuts := [("s1", "p1"), ("s2", "p2")], express := {}
          dirname := "d", filename := "v.dot" }
        ⟨.undefined, jobj [("_locals", jobj [("q", .str "z")])], false⟩ = .ok "5" ∧
    ([seedLayoutModel .undefined (.objNil 0), JVal.fn 0,
        localsArg (jobj [("_locals", jobj [("q", .str "z")])]),
        jobj [("_locals", jobj [("q", .str "z")])]] ++ ([] : List JVal) ++
      [JVal.null, JVal.null]).length = 6 ∧
    (unionJ ([seedLayoutModel .undefined (.objNil 0), JVal.fn 0,
        localsArg (jobj [("_locals", jobj [("q", .str "z")])]),
        jobj [("_locals", jobj [("q", .str "z")])]] ++ ([] : List JVal) ++
      [JVal.null, JVal.null])).length = 5 := by
  refine ⟨rfl, by decide, by decide⟩

/-- C4 (amended): the argument list passed to a compiled section is the
lodash UNION — the concatenation of `[layoutModel, partialHelper,
locals-override-or-empty, model]`, the configured view-data values and
the shortcut values, with duplicate values (SameValueZero) removed,
keeping first occurrences; each shortcut value is the `_locals` entry
named by the shortcut's path when that entry is truthy and `null`
otherwise (so also when the entry is present but falsy); and the
section's result is stored into the layout model under the section's
name before the loop moves on. -/
theorem c4_view_model :
    (∀ (L helper model : JVal) (viewData : List JVal)
        (shortcuts : List (String × String)) (svals : List JVal),
        shortcutVals shortcuts model = .ok svals →
        buildViewModel L helper model viewData shortcuts =
          .ok (unionJ ([L, helper, localsArg model, model] ++ viewData ++ svals))) ∧
    (∀ l : List JVal, (unionJ l).Nodup ∧ ∀ v, v ∈ unionJ l ↔ v ∈ l) ∧
    (∀ (shortcuts : List (String × String)) (model : JVal) (svals : List JVal),
        shortcutVals shortcuts model = .ok svals →
        svals = shortcuts.map (fun q =>
          if truthy (getField (getField model "_locals") q.2) then
            getField (getField model "_locals") q.2
          else JVal.null)) ∧
    (∀ (t : Template) (model L : JVal) (key : String) (f : SectFn)
        (rest : List (String × SectFn)) (args : List JVal) (v : JVal),
        buildViewModel L (.fn 0) model t.viewData t.shortcuts = .ok args →
        f args = .ok v →
        renderSectionsSync t model L ((key, f) :: rest) =
          renderSectionsSync t model (setField L key v) rest) := by
  refine ⟨?_, unionJ_spec, ?_, ?_⟩
  · intro L helper model viewData shortcuts svals h
    rw [buildViewModel, h]
  · intro shortcuts model svals h
    unfold shortcutVals at h
    cases hl : getField model "_locals" with
    | undefined =>
        rw [hl] at h
        cases hse : shortcuts.isEmpty
        · simp [hse] at h
        · simp only [hse, if_true] at h
          have : shortcuts = [] := List.isEmpty_iff.mp hse
          subst this
          simp only [List.map_nil]
          exact (Except.ok.injEq _ _ ▸ h).symm
    | null =>
        rw [hl] at h
        cases hse : shortcuts.isEmpty
        · simp [hse] at h
        · simp only [hse, if_true] at h
          have : shortcuts = [] := List.isEmpty_iff.mp hse
          subst this
          simp only [List.map_nil]
          exact (Except.ok.injEq _ _ ▸ h).symm
    | _ =>
        rw [hl] at h
        simp only [Except.ok.injEq] at h
        rw [← h]
  · intro t model L key f rest args v h1 h2
    rw [renderSectionsSync, h1]
    dsimp only
    rw [h2]

/-- C4 witness. -/
theorem c4_view_model_witness :
    buildViewModel (.objNil 1) (.fn 0) (jobj [("_locals", jobj [("q", .str "z")])]) []
        [("s1", "p1"), ("s2", "p2")] =
      .ok (unionJ ([JVal.objNil 1, .fn 0,
        localsArg (jobj [("_locals", jobj [("q", .str "z")])]),
        jobj [("_locals", jobj [("q", .str "z")])]] ++ [] ++
        [JVal.null, JVal.null])) :=
  c4_view_model.1 (.objNil 1) (.fn 0) (jobj [("_locals", jobj [("q", .str "z")])]) []
    [("s1", "p1"), ("s2", "p2")] [JVal.null, JVal.null] (by decide)

/-! ## Claim C3 -/

/-- C3 counterexample: the partial helper's closure REASSIGNS its
captured model when extra data is passed.  After an invocation with
extra data `{b: "X"}`, a later path-only invocation through the same
helper instance renders the target against the merged model (output
`"X"`), not against the caller's current model (which would give
`"undefined"`), contradicting the claim for later invocations. -/
theorem c3_counterexample :
    (invokePartialHelper settings envC3 1 tC3 (.objNil 0)
        ((invokePartialHelper settings envC3 1 tC3 (.objNil 0)
            (createPartialHelper (jobj [("a", .str "1")])) "p.dot"
            [jobj [("b", .str "X")]]).2)
        "p.dot" []).1 = .ok "X" ∧
    Template.render settings envC3 1 ptC3
        ⟨.objNil 0, jobj [("a", .str "1")], true⟩ = .ok "undefined" ∧
    (Except.ok "X" : Except String String) ≠ .ok "undefined" := by
  refine ⟨by decide, by decide, by decide⟩

/-- C3 (amended): the helper closure holds a current model, initialized
to the caller's model.  A path-only invocation renders the target with
the helper's CURRENT model (which equals the caller's model only until
some invocation passes extra data) and leaves the state unchanged; an
invocation with extra data renders the target with a fresh shallow
`_.assign` merge of the current model and the extra objects — extra
fields taking precedence, as the last two conjuncts characterize — and
REPLACES the helper's current model by that merge.  Sync and async
templates route through the mode-matching pipeline. -/
theorem c3_partial_helper_model :
    (∀ model : JVal, createPartialHelper model = ⟨model⟩) ∧
    (∀ (stg : EngineSettings) (getT : String → Option Template) (fuel : Nat)
        (t : Template) (layout : JVal) (st : PHState) (pPath : String) (pt : Template),
        t.isAsync = false →
        getT (joinPath (if t.dirname ≠ "" then t.dirname else viewsOf t.express) pPath) =
          some pt →
        invokePartialHelper stg getT fuel t layout st pPath [] =
          (Template.render stg getT fuel pt ⟨layout, st.model, true⟩, st)) ∧
    (∀ (stg : EngineSettings) (getT : String → Option Template) (fuel : Nat)
        (t : Template) (layout : JVal) (st : PHState) (pPath : String) (pt : Template),
        t.isAsync = true →
        getT (joinPath (if t.dirname ≠ "" then t.dirname else viewsOf t.express) pPath) =
          some pt →
        invokePartialHelper stg getT fuel t layout st pPath [] =
          (Template.renderAsync stg getT fuel pt ⟨layout, st.model, true⟩, st)) ∧
    (∀ (stg : EngineSettings) (getT : String → Option Template) (fuel : Nat)
        (t : Template) (layout : JVal) (st : PHState) (pPath : String) (pt : Template)
        (args : List JVal),
        t.isAsync = false → args ≠ [] →
        getT (joinPath (if t.dirname ≠ "" then t.dirname else viewsOf t.express) pPath) =
          some pt →
        invokePartialHelper stg getT fuel t layout st pPath args =
          (Template.render stg getT fuel pt
            ⟨layout, assignJ ([JVal.objNil 3, st.model] ++ args), true⟩,
           ⟨assignJ ([JVal.objNil 3, st.model] ++ args)⟩)) ∧
    (∀ (m e : JVal) (k : String) (v : JVal),
        (objKeys e).Nodup → getFieldOpt e k = some v →
        getFieldOpt (assignJ [JVal.objNil 3, m, e]) k = some v) ∧
    (∀ (m e : JVal) (k : String),
        getFieldOpt e k = none → (objKeys m).Nodup →
        getFieldOpt (assignJ [JVal.objNil 3, m, e]) k = getFieldOpt m k) := by
  refine ⟨fun model => rfl, ?_, ?_, ?_, ?_, ?_⟩
  · intro stg getT fuel t layout st pPath pt hA hgetT
    simp only [ne_eq, ite_not] at hgetT
    unfold invokePartialHelper
    simp [hA, hgetT]
  · intro stg getT fuel t layout st pPath pt hA hgetT
    simp only [ne_eq, ite_not] at hgetT
    unfold invokePartialHelper
    simp [hA, hgetT]
  · intro stg getT fuel t layout st pPath pt args hA hne hgetT
    simp only [ne_eq, ite_not] at hgetT
    cases args with
    | nil => exact absurd rfl hne
    | cons a as =>
        unfold invokePartialHelper
        simp [hA, hgetT]
  · intro m e k v hnd hlk
    have hwf : isWfObj (assignOne (JVal.objNil 3) m) = true := by
      rw [isWfObj_assignOne]
      rfl
    show getFieldOpt (assignOne (assignOne (JVal.objNil 3) m) e) k = some v
    exact assignOne_lookup_some e _ k v hwf hnd hlk
  · intro m e k hlk hnd
    show getFieldOpt (assignOne (assignOne (JVal.objNil 3) m) e) k = getFieldOpt m k
    rw [assignOne_lookup_none e _ k hlk]
    cases hm : getFieldOpt m k with
    | some w => exact assignOne_lookup_some m _ k w rfl hnd hm
    | none => rw [assignOne_lookup_none m _ k hm]; rfl

/-- C3 witness. -/
theorem c3_partial_helper_model_witness :
    invokePartialHelper settings envC3 1 tC3 (.objNil 0) ⟨jobj [("b", .str "W")]⟩
        "p.dot" [] =
      (Template.render settings envC3 1 ptC3
        ⟨.objNil 0, jobj [("b", .str "W")], true⟩, ⟨jobj [("b", .str "W")]⟩) :=
  c3_partial_helper_model.2.1 settings envC3 1 tC3 (.objNil 0) ⟨jobj [("b", .str "W")]⟩
    "p.dot" ptC3 rfl rfl

/-! ## Claim C1 -/

/-- C1 counterexample: when the master's own front-matter config binds
the section name (`sec: cfg`), the master's seeding merge
`_.merge({}, layout, config)` lets the CONFIG value shadow the child's
stored section output, so the master's reference to `sec` resolves to
`"cfg"` rather than to the child's compiled output `"kid"`. -/
theorem c1_counterexample :
    Template.render settings envC1 2 childC1 ⟨.undefined, jobj [], false⟩ = .ok "cfg" ∧
    ("cfg" : String) ≠ "kid" := by
  refine ⟨by decide, by decide⟩

/-- C1 (amended): for a two-level layout, the child's render hands off
to the master only with the layout model in which ALL of the child's
sections have been evaluated and stored (both in the sync `render` and
the async `renderAsync` pipeline — the handoff target is the post-
settlement layout model, so the master's render begins only after every
child section has settled); for a child defining the single named
section `X`, the stored value is exactly the child's compiled output
for `X`; and the master's seeded layout model resolves `X` to that
stored output PROVIDED the master's own config does not bind `X`
(config bindings shadow child section outputs, as the counterexample
shows). -/
theorem c1_layout_resolution :
    (∀ (stg : EngineSettings) (getT : String → Option Template) (fuel : Nat)
        (child master : Template) (o : RenderOpts) (mp : String) (L : JVal),
        child.isLayout = true → child.master = some mp → getT mp = some master →
        renderSectionsSync child o.model (seedLayoutModel o.layout child.config)
            child.templates = .ok L →
        Template.render stg getT (fuel + 1) child o =
          Template.render stg getT fuel master ⟨L, o.model, false⟩) ∧
    (∀ (stg : EngineSettings) (getT : String → Option Template) (fuel : Nat)
        (child master : Template) (o : RenderOpts) (mp : String)
        (settled : List (String × Except String String)),
        child.isLayout = true → child.master = some mp → getT mp = some master →
        collectAsyncSections child o.model (seedLayoutModel o.layout child.config)
            child.templates = .ok settled →
        firstRejection settled = none →
        Template.renderAsync stg getT (fuel + 1) child o =
          Template.renderAsync stg getT fuel master
            ⟨storeSettled (seedLayoutModel o.layout child.config) settled,
              o.model, false⟩) ∧
    (∀ (child : Template) (o : RenderOpts) (x : String) (f : SectFn)
        (args : List JVal) (sx : String),
        child.templates = [(x, f)] →
        buildViewModel (seedLayoutModel o.layout child.config) (.fn 0) o.model
            child.viewData child.shortcuts = .ok args →
        f args = .ok (.str sx) →
        renderSectionsSync child o.model (seedLayoutModel o.layout child.config)
            child.templates =
          .ok (setField (seedLayoutModel o.layout child.config) x (.str sx))) ∧
    (∀ (L cfg : JVal) (x : String) (sx : String),
        isWfObj L = true → (objKeys L).Nodup → getFieldOpt L x = some (.str sx) →
        isWfObj cfg = true → x ∉ objKeys cfg →
        getFieldOpt (seedLayoutModel L cfg) x = some (.str sx)) := by
  refine ⟨?_, ?_, ?_, ?_⟩
  · intro stg getT fuel child master o mp L hlay hm hgetT hrun
    rw [Template.render, hrun]
    simp [hlay, hm, hgetT]
  · intro stg getT fuel child master o mp settled hlay hm hgetT hcol hrej
    rw [Template.renderAsync, hcol]
    simp [hrej, hlay, hm, hgetT]
  · intro child o x f args sx hsects hargs hf
    rw [hsects, renderSectionsSync, hargs]
    dsimp only
    rw [hf]
    rfl
  · intro L cfg x sx hwf hnd hlk hcfg hx
    have h1 : getFieldOpt (mergeVal (.objNil 1) L) x = some (.str sx) :=
      mergeVal_lookup_new L hwf _ x (.str sx) rfl hnd hlk (by simp) rfl
    show getFieldOpt (mergeVal (mergeVal (.objNil 1) L) cfg) x = some (.str sx)
    rw [mergeVal_lookup_notin cfg hcfg _ x
      (isObjLike_of_isWfObj _ (mergeVal_wf L hwf (.objNil 1) rfl)) hx]
    exact h1

/-- C1 witness: a concrete two-level layout where the master's config
does not bind the section name — the child render equals the master
render on the stored layout model and the master's seeded model
resolves `sec` to the child's output. -/
theorem c1_layout_resolution_witness :
    Template.render settings envC1w 2 childC1w ⟨.undefined, jobj [], false⟩ =
      Template.render settings envC1w 1 masterC1w ⟨LC1w, jobj [], false⟩ ∧
    getFieldOpt (seedLayoutModel LC1w masterC1w.config) "sec" = some (.str "kid") := by
  constructor
  · exact c1_layout_resolution.1 settings envC1w 1 childC1w masterC1w _ "d/m.dot" LC1w
      rfl rfl rfl (by decide)
  · exact c1_layout_resolution.2.2.2 LC1w masterC1w.config "sec" "kid" (by decide)
      (by decide) (by decide) (by decide) (by decide)

/-! ## Claim C9 -/

/-- C9 counterexample: in the async pipeline a section failure surfaces
as a REJECTED promise; `Promise.all` propagates the original rejection,
so the error reaching the caller is NOT wrapped with the owning
template's filename — contradicting the claim that every surfaced
section failure is a single wrapped error naming the filename. -/
theorem c9_counterexample :
    Template.renderAsync settings (fun _ => none) 1
        { isAsync := true, isLayout := false, master := none, config := .objNil 0
          templates := [("body", fun _ => .ok (.jsPromiseErr "Error: boom"))]
          viewData := [], shortcuts := [], express := {}
          dirname := "d", filename := "v.dot" }
        ⟨.undefined, jobj [], false⟩ = .error "Error: boom" ∧
    ("Error: boom" : String) ≠ renderWrap "v.dot" "Error: boom" := by
  refine ⟨by decide, by decide⟩

/-- C9 (amended): in sync mode a throwing section yields the single
wrapped error naming the template's filename and the original message,
and no later section is rendered (the result is the same for EVERY
suffix after the failing section); the wrapped error propagates as the
whole render result.  In async mode a synchronous throw during a
section invocation is wrapped the same way and aborts the fan-out,
while a rejected section promise fails the whole render with the
ORIGINAL, unwrapped error.  In every case the render result is the
error alone — no partial output accompanies it. -/
theorem c9_error_wrapping :
    (∀ (t : Template) (model L L1 : JVal) (key : String) (f : SectFn)
        (pre : List (String × SectFn)) (args : List JVal) (e : String),
        renderSectionsSync t model L pre = .ok L1 →
        buildViewModel L1 (.fn 0) model t.viewData t.shortcuts = .ok args →
        f args = .error e →
        ∀ post, renderSectionsSync t model L (pre ++ (key, f) :: post) =
          .error (renderWrap t.filename e)) ∧
    (∀ (stg : EngineSettings) (getT : String → Option Template) (fuel : Nat)
        (t : Template) (o : RenderOpts) (L1 : JVal) (key : String) (f : SectFn)
        (pre post : List (String × SectFn)) (args : List JVal) (e : String),
        t.templates = pre ++ (key, f) :: post →
        renderSectionsSync t o.model (seedLayoutModel o.layout t.config) pre = .ok L1 →
        buildViewModel L1 (.fn 0) o.model t.viewData t.shortcuts = .ok args →
        f args = .error e →
        Template.render stg getT (fuel + 1) t o = .error (renderWrap t.filename e)) ∧
    (∀ (t : Template) (model L0 : JVal) (key : String) (f : SectFn)
        (rest : List (String × SectFn)) (args : List JVal) (e : String),
        buildViewModel L0 (.fn 0) model t.viewData t.shortcuts = .ok args →
        f args = .error e →
        collectAsyncSections t model L0 ((key, f) :: rest) =
          .error (renderWrap t.filename e)) ∧
    (∀ (stg : EngineSettings) (getT : String → Option Template) (fuel : Nat)
        (t : Template) (o : RenderOpts)
        (settled : List (String × Except String String)) (e : String),
        collectAsyncSections t o.model (seedLayoutModel o.layout t.config)
            t.templates = .ok settled →
        firstRejection settled = some e →
        Template.renderAsync stg getT (fuel + 1) t o = .error e) ∧
    (∀ (stg : EngineSettings) (getT : String → Option Template) (fuel : Nat)
        (t : Template) (o : RenderOpts) (e : String),
        collectAsyncSections t o.model (seedLayoutModel o.layout t.config)
            t.templates = .error e →
        Template.renderAsync stg getT (fuel + 1) t o = .error e) := by
  have hhalt : ∀ (t : Template) (model L L1 : JVal) (key : String) (f : SectFn)
      (pre : List (String × SectFn)) (args : List JVal) (e : String),
      renderSectionsSync t model L pre = .ok L1 →
      buildViewModel L1 (.fn 0) model t.viewData t.shortcuts = .ok args →
      f args = .error e →
      ∀ post, renderSectionsSync t model L (pre ++ (key, f) :: post) =
        .error (renderWrap t.filename e) := by
    intro t model L L1 key f pre args e hpre hargs hf post
    rw [renderSectionsSync_append, hpre]
    dsimp only
    rw [renderSectionsSync, hargs]
    dsimp only
    rw [hf]
  refine ⟨hhalt, ?_, ?_, ?_, ?_⟩
  · intro stg getT fuel t o L1 key f pre post args e ht hpre hargs hf
    rw [Template.render, ht, hhalt t o.model _ L1 key f pre args e hpre hargs hf post]
  · intro t model L0 key f rest args e hargs hf
    rw [collectAsyncSections, hargs]
    dsimp only
    rw [hf]
  · intro stg getT fuel t o settled e hcol hrej
    rw [Template.renderAsync, hcol]
    dsimp only
    rw [hrej]
  · intro stg getT fuel t o e hcol
    rw [Template.renderAsync, hcol]

/-- C9 witness: a sync template whose first section throws renders to
exactly the wrapped error, with the second section never reached. -/
theorem c9_error_wrapping_witness :
    Template.render settings (fun _ => none) 1
        { isAsync := false, isLayout := false, master := none, config := .objNil 0
          templates := [("body", fun _ => .error "Error: bad"),
            ("x", fun _ => .ok (.str "unreached"))]
          viewData := [], shortcuts := [], express := {}
          dirname := "d", filename := "v.dot" }
        ⟨.undefined, jobj [], false⟩ = .error (renderWrap "v.dot" "Error: bad") :=
  c9_error_wrapping.2.1 settings (fun _ => none) 0 _ _ (seedLayoutModel .undefined (.objNil 0))
    "body" (fun _ => .error "Error: bad") [] [("x", fun _ => .ok (.str "unreached"))]
    [JVal.objNil 1, .fn 0, .objNil 2, .objNil 0] "Error: bad" rfl rfl (by decide) rfl

/-! ## Claim C10 -/

/-- C10: the synchronous and asynchronous template caches are disjoint
stores — `getTemplate` touches (reads or writes) only the sync store
and `getTemplateAsync` only the async store; when the render options do
not set the cache flag, neither store is read or written and the result
is exactly the fresh build (caching is opt-in); and under the store
discipline a sync lookup can only produce a sync-built template
(`isAsync = false`), an async lookup only an async-built one, and both
operations preserve the discipline. -/
theorem c10_cache_isolation :
    (∀ (yamlLoad : String → JVal) (stg : EngineSettings) (comp compA : String → SectFn)
        (load : String → Option String) (st : Stores) (filename : String)
        (o : ExpressOpts),
        (getTemplate yamlLoad stg comp load st filename o).2.asyncCache =
          st.asyncCache ∧
        (getTemplateAsync yamlLoad stg compA load st filename o).2.cache = st.cache) ∧
    (∀ (yamlLoad : String → JVal) (stg : EngineSettings) (comp compA : String → SectFn)
        (load : String → Option String) (st : Stores) (filename : String)
        (o : ExpressOpts),
        o.cache = false →
        getTemplate yamlLoad stg comp load st filename o =
          (buildTemplate yamlLoad stg comp load filename o, st) ∧
        getTemplateAsync yamlLoad stg compA load st filename o =
          (buildTemplateAsync yamlLoad stg compA load filename o, st)) ∧
    (∀ (yamlLoad : String → JVal) (stg : EngineSettings) (comp compA : String → SectFn)
        (load : String → Option String) (st : Stores) (filename : String)
        (o : ExpressOpts),
        storesWellTyped st →
        (∀ t : Template,
          (getTemplate yamlLoad stg comp load st filename o).1 = .ok t →
            t.isAsync = false) ∧
        (∀ t : Template,
          (getTemplateAsync yamlLoad stg compA load st filename o).1 = .ok t →
            t.isAsync = true) ∧
        storesWellTyped (getTemplate yamlLoad stg comp load st filename o).2 ∧
        storesWellTyped (getTemplateAsync yamlLoad stg compA load st filename o).2) := by
  refine ⟨?_, ?_, ?_⟩
  · intro yamlLoad stg comp compA load st filename o
    constructor
    · unfold getTemplate
      by_cases hc : o.cache = true
      · simp only [hc, if_true]
        cases cacheGet st.cache filename
        · cases buildTemplate yamlLoad stg comp load filename o <;> rfl
        · rfl
      · simp [hc]
    · unfold getTemplateAsync
      by_cases hc : o.cache = true
      · simp only [hc, if_true]
        cases cacheGet st.asyncCache filename
        · cases buildTemplateAsync yamlLoad stg compA load filename o <;> rfl
        · rfl
      · simp [hc]
  · intro yamlLoad stg comp compA load st filename o hc
    constructor
    · unfold getTemplate
      simp [hc]
    · unfold getTemplateAsync
      simp [hc]
  · intro yamlLoad stg comp compA load st filename o hwt
    obtain ⟨hws, hwa⟩ := hwt
    refine ⟨?_, ?_, ?_, ?_⟩
    · intro t ht
      unfold getTemplate at ht
      by_cases hc : o.cache = true
      · simp only [hc, if_true] at ht
        cases hg : cacheGet st.cache filename with
        | some t2 =>
            rw [hg] at ht
            simp only [Except.ok.injEq] at ht
            exact hws filename t (ht ▸ cacheGet_mem _ _ _ hg)
        | none =>
            rw [hg] at ht
            cases hb : buildTemplate yamlLoad stg comp load filename o with
            | ok t2 =>
                rw [hb] at ht
                simp only [Except.ok.injEq] at ht
                exact ht ▸ buildTemplate_sync _ _ _ _ _ _ _ hb
            | error e => rw [hb] at ht; simp at ht
      · simp [hc] at ht
        exact buildTemplate_sync _ _ _ _ _ _ _ ht
    · intro t ht
      unfold getTemplateAsync at ht
      by_cases hc : o.cache = true
      · simp only [hc, if_true] at ht
        cases hg : cacheGet st.asyncCache filename with
        | some t2 =>
            rw [hg] at ht
            simp only [Except.ok.injEq] at ht
            exact hwa filename t (ht ▸ cacheGet_mem _ _ _ hg)
        | none =>
            rw [hg] at ht
            cases hb : buildTemplateAsync yamlLoad stg compA load filename o with
            | ok t2 =>
                rw [hb] at ht
                simp only [Except.ok.injEq] at ht
                exact ht ▸ buildTemplateAsync_async _ _ _ _ _ _ _ hb
            | error e => rw [hb] at ht; simp at ht
      · simp [hc] at ht
        exact buildTemplateAsync_async _ _ _ _ _ _ _ ht
    · unfold getTemplate
      by_cases hc : o.cache = true
      · simp only [hc, if_true]
        cases hg : cacheGet st.cache filename with
        | some t2 => exact ⟨hws, hwa⟩
        | none =>
            cases hb : buildTemplate yamlLoad stg comp load filename o with
            | ok t2 =>
                refine ⟨?_, hwa⟩
                intro p t hmem
                rcases mem_cacheSet _ _ _ _ hmem with hmem | hmem
                · exact hws p t hmem
                · rw [show t = t2 from congrArg Prod.snd hmem]
                  exact buildTemplate_sync _ _ _ _ _ _ _ hb
            | error e => exact ⟨hws, hwa⟩
      · simp [hc]
        exact ⟨hws, hwa⟩
    · unfold getTemplateAsync
      by_cases hc : o.cache = true
      · simp only [hc, if_true]
        cases hg : cacheGet st.asyncCache filename with
        | some t2 => exact ⟨hws, hwa⟩
        | none =>
            cases hb : buildTemplateAsync yamlLoad stg compA load filename o with
            | ok t2 =>
                refine ⟨hws, ?_⟩
                intro p t hmem
                rcases mem_cacheSet _ _ _ _ hmem with hmem | hmem
                · exact hwa p t hmem
                · rw [show t = t2 from congrArg Prod.snd hmem]
                  exact buildTemplateAsync_async _ _ _ _ _ _ _ hb
            | error e => exact ⟨hws, hwa⟩
      · simp [hc]
        exact ⟨hws, hwa⟩

/-- C10 witness: with caching off nothing is read or written, and the
typing discipline holds on the resulting stores for a concrete
request. -/
theorem c10_cache_isolation_witness :
    getTemplate (fun _ => jobj []) settings (fun txt => fun _ => .ok (.str txt))
        (fun _ => some "hi") ⟨[], []⟩ "a.dot" {} =
      (buildTemplate (fun _ => jobj []) settings (fun txt => fun _ => .ok (.str txt))
        (fun _ => some "hi") "a.dot" {}, ⟨[], []⟩) ∧
    (∀ t : Template,
      (getTemplate (fun _ => jobj []) settings (fun txt => fun _ => .ok (.str txt))
          (fun _ => some "hi") ⟨[], []⟩ "a.dot" { cache := true }).1 = .ok t →
        t.isAsync = false) := by
  constructor
  · exact (c10_cache_isolation.2.1 (fun _ => jobj []) settings
      (fun txt => fun _ => .ok (.str txt)) (fun txt => fun _ => .ok (.str txt))
      (fun _ => some "hi") ⟨[], []⟩ "a.dot" {} rfl).1
  · exact ((c10_cache_isolation.2.2 (fun _ => jobj []) settings
      (fun txt => fun _ => .ok (.str txt)) (fun txt => fun _ => .ok (.str txt))
      (fun _ => some "hi") ⟨[], []⟩ "a.dot" { cache := true }
      ⟨fun p t h => absurd h (List.not_mem_nil _), fun p t h => absurd h (List.not_mem_nil _)⟩).1)
